import Mathlib

/-!
Verification development for the warehouse-facility ledger contract
(src/Rust/warehouse-facility.rs): a shallow embedding of the pledge/paydown
lifecycle engine and its asset-inventory bookkeeping, together with proofs
of the specified functional, invariant and error-handling properties.

The storage layer (crate::state) and the vector helpers (crate::utils) are
not part of the provided sources; they are modelled from the specification
(sections 4.1, 6 and 9) and are marked accordingly.  Everything else is a
direct translation of the Rust source.
-/

namespace Warehouse

/-- `AssetState` from crate::state: custody state of an asset record. -/
inductive AssetState
  | Inventory
  | PledgeProposed
  | PaydownProposed
deriving DecidableEq

/-- `PledgeState` from crate::state. -/
inductive PledgeState
  | Proposed
  | Accepted
  | Cancelled
  | Executed
  | Closed
deriving DecidableEq

/-- `PaydownState` from crate::state. -/
inductive PaydownState
  | Proposed
  | Accepted
  | Cancelled
  | Executed
deriving DecidableEq

/-- `PaydownKind` from crate::state. -/
inductive PaydownKind
  | PaydownOnly
  | PaydownAndSell
deriving DecidableEq

/-- `ContractParty` from crate::state. -/
inductive ContractParty
  | Warehouse
  | Buyer
deriving DecidableEq

/-- `Pledge` record from crate::state (amounts as `Nat`). -/
structure Pledge where
  id : String
  assets : List String
  total_advance : Nat
  asset_marker_denom : String
  state : PledgeState
deriving DecidableEq

/-- `PaydownSaleInfo` from crate::state: buyer identity and purchase price. -/
structure PaydownSaleInfo where
  buyer : String
  price : Nat
deriving DecidableEq

/-- `Paydown` record from crate::state. -/
structure Paydown where
  id : String
  assets : List String
  total_paydown : Nat
  kind : PaydownKind
  state : PaydownState
  parties_accepted : List ContractParty
  sale_info : Option PaydownSaleInfo
deriving DecidableEq

/-- Marker permission kinds from provwasm (the subset the contract uses). -/
inductive MarkerAccess
  | Admin
  | Burn
  | Delete
  | Deposit
  | Mint
  | Transfer
  | Withdraw
deriving DecidableEq

/-- `AccessGrant`: an address together with its marker permissions. -/
structure AccessGrant where
  address : String
  permissions : List MarkerAccess
deriving DecidableEq

/-- A marker snapshot as returned by the provenance querier. -/
structure Marker where
  address : String
  denom : String
  permissions : List AccessGrant
deriving DecidableEq

/-- Facility configuration (the fields the core engine reads). -/
structure Facility where
  warehouse : String
  originator : String
  escrow_marker : String
  stablecoin_denom : String
deriving DecidableEq

/-- Contract info holding the facility configuration. -/
structure ContractInfo where
  facility : Facility
deriving DecidableEq

/-- A coin attached to a message: denom and amount. -/
structure Coin where
  denom : String
  amount : Nat
deriving DecidableEq

/-- `MessageInfo`: the sender and the funds attached to the call. -/
structure MessageInfo where
  sender : String
  funds : List Coin
deriving DecidableEq

/-- The external provenance querier: marker snapshots by address / denom.
Queries are modelled as total snapshot functions (the escrow oracle of
section 6 of the specification). -/
structure Querier where
  byAddress : String → Marker
  byDenom : String → Marker

/-- Static call context: the contract address (env.contract.address), the
querier, and the stored contract info. -/
structure Ctx where
  contract_address : String
  querier : Querier
  contract_info : ContractInfo

/-- Settlement instructions emitted by the engine. -/
inductive Msg
  | bankSend (to_address : String) (amount : Nat) (denom : String)
  | createMarker (supply : Nat) (denom : String)
  | grantMarkerAccess (denom : String) (address : String) (permissions : List MarkerAccess)
  | finalizeMarker (denom : String)
  | activateMarker (denom : String)
  | withdrawCoins (marker_denom : String) (amount : Nat) (denom : String) (recipient : String)
  | transferMarkerCoins (amount : Nat) (denom : String) (from_address : String) (to_address : String)
  | cancelMarker (denom : String)
  | destroyMarker (denom : String)
deriving DecidableEq

/-- `ContractError` from crate::error (the variants the core engine uses).
`NotFound` stands for the storage-layer load error propagated by `?`;
`NoneUnwrap` stands for a Rust panic on `Option::unwrap` of a `None`. -/
inductive ContractError
  | NotFound
  | PledgeAlreadyExists (id : String)
  | AssetsAlreadyPledged
  | MissingEscrowMarkerGrant
  | StateError (error : String)
  | MissingPledgeAdvanceFunds
  | InsufficientPledgeAdvanceFunds (need : Nat) (need_denom : String)
      (received : Nat) (received_denom : String)
  | PaydownAlreadyExists (id : String)
  | AssetsNotInInventory
  | MissingPaydownFunds
  | InsufficientPaydownFunds (need : Nat) (need_denom : String)
      (received : Nat) (received_denom : String)
  | Unauthorized
  | PaydownPartyAlreadyAccepted (party : ContractParty)
  | MissingPurchaseFunds
  | InsufficientPurchaseFunds (need : Nat) (need_denom : String)
      (received : Nat) (received_denom : String)
  | NoneUnwrap
deriving DecidableEq

/-- The response visible to the caller: emitted settlement instructions and
the affected / closed pledge id attributes (empty for operations that do
not report them). -/
structure Response where
  messages : List Msg
  affected_pledges : List String
  closed_pledges : List String
deriving DecidableEq

/-- Modelled from the spec: `vec_contains` of the missing crate::utils —
true iff every element of `b` occurs in `a` (usage at
warehouse-facility.rs lines 34, 47, 832, 839, 902 fixes this orientation). -/
def vec_contains [DecidableEq α] (a b : List α) : Bool :=
  b.all (fun x => decide (x ∈ a))

/-- Modelled from the spec: `vec_has_any` of the missing crate::utils —
true iff some element of `b` occurs in `a`. -/
def vec_has_any [DecidableEq α] (a b : List α) : Bool :=
  b.any (fun x => decide (x ∈ a))

/-- The persisted ledger: asset records, pledge records, paydown records
(section 6: keyed records, independently addressable by id). -/
structure Ledger where
  assets : List (String × AssetState)
  pledges : List Pledge
  paydowns : List Paydown
deriving DecidableEq

/-- Modelled from the spec: point lookup in a keyed record store (first
record with the given key). -/
def loadRec (key : α → String) : List α → String → Option α
  | [], _ => none
  | x :: rest, id => if key x = id then some x else loadRec key rest id

/-- Modelled from the spec: upsert in a keyed record store — overwrite the
first record with the same key, or append if absent. -/
def saveRec (key : α → String) : List α → α → List α
  | [], v => [v]
  | x :: rest, v => if key x = key v then v :: rest else x :: saveRec key rest v

/-- Modelled from the spec: asset-record lookup by id. -/
def lookupA : List (String × AssetState) → String → Option AssetState
  | [], _ => none
  | (k, s) :: rest, a => if k = a then some s else lookupA rest a

/-- Modelled from the spec: overwrite (or create) a single asset record. -/
def upsertAsset : List (String × AssetState) → String → AssetState → List (String × AssetState)
  | [], a, s => [(a, s)]
  | (k, t) :: rest, a, s => if k = a then (a, s) :: rest else (k, t) :: upsertAsset rest a s

/-- Modelled from the spec: `set_assets_state` of crate::state —
unconditionally overwrites the state for each listed asset id, creating the
record if absent (section 4.1). -/
def set_assets_state (l : List (String × AssetState)) (s : AssetState)
    (ids : List String) : List (String × AssetState) :=
  ids.foldl (fun acc a => upsertAsset acc a s) l

/-- Modelled from the spec: `remove_assets` of crate::state — deletes the
records entirely (section 4.1). -/
def remove_assets (l : List (String × AssetState)) (ids : List String) :
    List (String × AssetState) :=
  l.filter (fun p => decide (¬ p.1 ∈ ids))

/-- Modelled from the spec: `get_asset_ids` of crate::state — asset ids,
optionally filtered by exact state (None meaning any state). -/
def get_asset_ids (l : List (String × AssetState)) (state : Option AssetState) :
    List String :=
  match state with
  | none => l.map Prod.fst
  | some s => (l.filter (fun p => decide (p.2 = s))).map Prod.fst

/-- Modelled from the spec: `get_asset_ids_by_filter` of crate::state —
asset ids whose state is one of the listed states. -/
def get_asset_ids_by_filter (l : List (String × AssetState))
    (states : List AssetState) : List String :=
  (l.filter (fun p => decide (p.2 ∈ states))).map Prod.fst

/-- Modelled from the spec: `find_pledge_ids_with_assets` of crate::state —
ids of pledges (optionally filtered by state) referencing any of the given
asset ids (section 9: findPledgesReferencingAssets). -/
def find_pledge_ids_with_assets (pledges : List Pledge) (assets : List String)
    (state : Option PledgeState) : List String :=
  ((pledges.filter (fun p =>
      (match state with
       | none => true
       | some s => decide (p.state = s)) && vec_has_any p.assets assets)).map Pledge.id)

/-- `load_pledge` on the ledger. -/
def load_pledge (st : Ledger) (id : String) : Option Pledge :=
  loadRec Pledge.id st.pledges id

/-- `save_pledge` on the ledger. -/
def save_pledge (st : Ledger) (p : Pledge) : Ledger :=
  Ledger.mk st.assets (saveRec Pledge.id st.pledges p) st.paydowns

/-- `load_paydown` on the ledger. -/
def load_paydown (st : Ledger) (id : String) : Option Paydown :=
  loadRec Paydown.id st.paydowns id

/-- `save_paydown` on the ledger. -/
def save_paydown (st : Ledger) (d : Paydown) : Ledger :=
  Ledger.mk st.assets st.pledges (saveRec Paydown.id st.paydowns d)

/-- `assets_in_inventory` (warehouse-facility.rs lines 41-48): all of the
specified assets are in the inventory with the optionally specified state. -/
def assets_in_inventory (st : Ledger) (state : Option AssetState)
    (assets : List String) : Bool :=
  vec_contains (get_asset_ids st.assets state) assets

/-- `any_assets_in_inventory` (warehouse-facility.rs lines 50-58). -/
def any_assets_in_inventory (st : Ledger) (state : Option AssetState)
    (assets : List String) : Bool :=
  vec_has_any (get_asset_ids st.assets state) assets

/-- `list_inventory` (warehouse-facility.rs lines 1096-1103): asset ids in
state Inventory or PaydownProposed. -/
def list_inventory (st : Ledger) : List String :=
  get_asset_ids_by_filter st.assets [AssetState.Inventory, AssetState.PaydownProposed]

/-- `marker_has_grant` (warehouse-facility.rs lines 26-38). -/
def marker_has_grant (m : Marker) (g : AccessGrant) : Bool :=
  match m.permissions.find? (fun p => decide (p.address = g.address)) with
  | some perm => vec_contains perm.permissions g.permissions
  | none => false

/-- The escrow-grant check every money-moving operation performs: the
contract address must hold Transfer and Withdraw on the escrow marker. -/
def escrow_grant_ok (ctx : Ctx) : Bool :=
  marker_has_grant (ctx.querier.byAddress ctx.contract_info.facility.escrow_marker)
    (AccessGrant.mk ctx.contract_address [MarkerAccess.Transfer, MarkerAccess.Withdraw])

/-- Result of an execute-entrypoint operation: the caller-visible result
and the ledger as left by the call (CosmWasm reverts it on error; the
operations below in fact never mutate before erroring, see thm_C5). -/
abbrev ExecResult := Except ContractError Response × Ledger

/-- Successful-branch ledger mutation of `propose_pledge`
(warehouse-facility.rs lines 259-272): save the new pledge, mark its
assets PledgeProposed. -/
def propose_pledge_apply (st : Ledger) (p : Pledge) : Ledger :=
  let st1 := save_pledge st p
  Ledger.mk (set_assets_state st1.assets AssetState.PledgeProposed p.assets)
    st1.pledges st1.paydowns

/-- `propose_pledge` (warehouse-facility.rs lines 223-311). -/
def propose_pledge (ctx : Ctx) (_info : MessageInfo) (id : String)
    (assets : List String) (total_advance : Nat) (asset_marker_denom : String)
    (st : Ledger) : ExecResult :=
  match load_pledge st id with
  | some v => (Except.error (ContractError.PledgeAlreadyExists v.id), st)
  | none =>
    if any_assets_in_inventory st none assets then
      (Except.error ContractError.AssetsAlreadyPledged, st)
    else if ¬ escrow_grant_ok ctx then
      (Except.error ContractError.MissingEscrowMarkerGrant, st)
    else
      let pledge := Pledge.mk id assets total_advance asset_marker_denom
        PledgeState.Proposed
      let messages := [
        Msg.createMarker 1 asset_marker_denom,
        Msg.grantMarkerAccess asset_marker_denom ctx.contract_address
          [MarkerAccess.Admin, MarkerAccess.Burn, MarkerAccess.Delete,
           MarkerAccess.Deposit, MarkerAccess.Mint, MarkerAccess.Transfer,
           MarkerAccess.Withdraw],
        Msg.finalizeMarker asset_marker_denom,
        Msg.activateMarker asset_marker_denom,
        Msg.withdrawCoins asset_marker_denom 1 asset_marker_denom
          ctx.contract_info.facility.originator]
      (Except.ok (Response.mk messages [] []), propose_pledge_apply st pledge)

/-- `accept_pledge` (warehouse-facility.rs lines 313-380). -/
def accept_pledge (ctx : Ctx) (info : MessageInfo) (id : String)
    (st : Ledger) : ExecResult :=
  match load_pledge st id with
  | none => (Except.error ContractError.NotFound, st)
  | some pledge =>
    if pledge.state ≠ PledgeState.Proposed then
      (Except.error (ContractError.StateError
        "Unable to accept pledge: Pledge is not in the proposed state."), st)
    else if ¬ escrow_grant_ok ctx then
      (Except.error ContractError.MissingEscrowMarkerGrant, st)
    else
      let escrow_marker :=
        ctx.querier.byAddress ctx.contract_info.facility.escrow_marker
      match info.funds.head? with
      | none => (Except.error ContractError.MissingPledgeAdvanceFunds, st)
      | some advance_funds =>
        if advance_funds.denom ≠ ctx.contract_info.facility.stablecoin_denom ∨
            advance_funds.amount ≠ pledge.total_advance then
          (Except.error (ContractError.InsufficientPledgeAdvanceFunds
            pledge.total_advance ctx.contract_info.facility.stablecoin_denom
            advance_funds.amount advance_funds.denom), st)
        else
          let messages := [Msg.bankSend escrow_marker.address
            pledge.total_advance ctx.contract_info.facility.stablecoin_denom]
          let pledge' := { pledge with state := PledgeState.Accepted }
          (Except.ok (Response.mk messages [] []), save_pledge st pledge')

/-- Successful-branch ledger mutation of `cancel_pledge`
(warehouse-facility.rs lines 456-461): save the cancelled pledge, remove
its assets from the inventory. -/
def cancel_pledge_apply (st : Ledger) (p : Pledge) : Ledger :=
  let st1 := save_pledge st ({ p with state := PledgeState.Cancelled })
  Ledger.mk (remove_assets st1.assets p.assets) st1.pledges st1.paydowns

/-- `cancel_pledge` (warehouse-facility.rs lines 382-467). -/
def cancel_pledge (ctx : Ctx) (_info : MessageInfo) (id : String)
    (st : Ledger) : ExecResult :=
  match load_pledge st id with
  | none => (Except.error ContractError.NotFound, st)
  | some pledge =>
    if ¬ (pledge.state = PledgeState.Proposed ∨ pledge.state = PledgeState.Accepted) then
      (Except.error (ContractError.StateError
        "Unable to cancel pledge: Pledge is not in the proposed or accepted state."), st)
    else if ¬ escrow_grant_ok ctx then
      (Except.error ContractError.MissingEscrowMarkerGrant, st)
    else
      let escrow_marker :=
        ctx.querier.byAddress ctx.contract_info.facility.escrow_marker
      let asset_marker := ctx.querier.byDenom pledge.asset_marker_denom
      let advance_msgs :=
        if pledge.state = PledgeState.Accepted then
          [Msg.withdrawCoins escrow_marker.denom pledge.total_advance
            ctx.contract_info.facility.stablecoin_denom
            ctx.contract_info.facility.warehouse]
        else []
      let messages := advance_msgs ++ [
        Msg.transferMarkerCoins 1 pledge.asset_marker_denom asset_marker.address
          ctx.contract_info.facility.originator,
        Msg.cancelMarker pledge.asset_marker_denom,
        Msg.destroyMarker pledge.asset_marker_denom]
      (Except.ok (Response.mk messages [] []), cancel_pledge_apply st pledge)

/-- Successful-branch ledger mutation of `execute_pledge`
(warehouse-facility.rs lines 511-516): save the executed pledge, set its
assets to Inventory. -/
def execute_pledge_apply (st : Ledger) (p : Pledge) : Ledger :=
  let st1 := save_pledge st ({ p with state := PledgeState.Executed })
  Ledger.mk (set_assets_state st1.assets AssetState.Inventory p.assets)
    st1.pledges st1.paydowns

/-- `execute_pledge` (warehouse-facility.rs lines 469-521). -/
def execute_pledge (ctx : Ctx) (_info : MessageInfo) (id : String)
    (st : Ledger) : ExecResult :=
  match load_pledge st id with
  | none => (Except.error ContractError.NotFound, st)
  | some pledge =>
    if pledge.state ≠ PledgeState.Accepted then
      (Except.error (ContractError.StateError
        "Unable to execute pledge: Pledge is not in the accepted state."), st)
    else if ¬ escrow_grant_ok ctx then
      (Except.error ContractError.MissingEscrowMarkerGrant, st)
    else
      let escrow_marker :=
        ctx.querier.byAddress ctx.contract_info.facility.escrow_marker
      let messages := [Msg.withdrawCoins escrow_marker.denom
        pledge.total_advance ctx.contract_info.facility.stablecoin_denom
        ctx.contract_info.facility.originator]
      (Except.ok (Response.mk messages [] []), execute_pledge_apply st pledge)

/-- Successful-branch ledger mutation of `propose_paydown` and
`propose_paydown_and_sell` (warehouse-facility.rs lines 596-600, 701-705):
save the new paydown, mark its assets PaydownProposed. -/
def propose_paydown_apply (st : Ledger) (d : Paydown) : Ledger :=
  let st1 := save_paydown st d
  Ledger.mk (set_assets_state st1.assets AssetState.PaydownProposed d.assets)
    st1.pledges st1.paydowns

/-- Common body of `propose_paydown` (warehouse-facility.rs lines 523-620)
and `propose_paydown_and_sell` (lines 622-725): the two functions differ
only in the paydown record they build and the action attribute. -/
def propose_paydown_common (ctx : Ctx) (info : MessageInfo) (id : String)
    (paydown : Paydown) (st : Ledger) : ExecResult :=
  match load_paydown st id with
  | some v => (Except.error (ContractError.PaydownAlreadyExists v.id), st)
  | none =>
    if ¬ assets_in_inventory st (some AssetState.Inventory) paydown.assets then
      (Except.error ContractError.AssetsNotInInventory, st)
    else if ¬ escrow_grant_ok ctx then
      (Except.error ContractError.MissingEscrowMarkerGrant, st)
    else
      let escrow_marker :=
        ctx.querier.byAddress ctx.contract_info.facility.escrow_marker
      match info.funds.head? with
      | none => (Except.error ContractError.MissingPaydownFunds, st)
      | some paydown_funds =>
        if paydown_funds.denom ≠ ctx.contract_info.facility.stablecoin_denom ∨
            paydown_funds.amount ≠ paydown.total_paydown then
          (Except.error (ContractError.InsufficientPaydownFunds
            paydown.total_paydown ctx.contract_info.facility.stablecoin_denom
            paydown_funds.amount paydown_funds.denom), st)
        else
          let messages := [Msg.bankSend escrow_marker.address
            paydown.total_paydown ctx.contract_info.facility.stablecoin_denom]
          let st' := propose_paydown_apply st paydown
          let affected := find_pledge_ids_with_assets st'.pledges paydown.assets
            (some PledgeState.Executed)
          (Except.ok (Response.mk messages affected []), st')

/-- `propose_paydown` (warehouse-facility.rs lines 523-620). -/
def propose_paydown (ctx : Ctx) (info : MessageInfo) (id : String)
    (assets : List String) (total_paydown : Nat) (st : Ledger) : ExecResult :=
  propose_paydown_common ctx info id
    (Paydown.mk id assets total_paydown PaydownKind.PaydownOnly
      PaydownState.Proposed [] none) st

/-- `propose_paydown_and_sell` (warehouse-facility.rs lines 622-725). -/
def propose_paydown_and_sell (ctx : Ctx) (info : MessageInfo) (id : String)
    (assets : List String) (total_paydown : Nat) (buyer : String)
    (purchase_price : Nat) (st : Ledger) : ExecResult :=
  propose_paydown_common ctx info id
    (Paydown.mk id assets total_paydown PaydownKind.PaydownAndSell
      PaydownState.Proposed [] (some (PaydownSaleInfo.mk buyer purchase_price))) st

/-- Party resolution of `accept_paydown` (warehouse-facility.rs lines
740-760): who is accepting, from the caller identity and the paydown kind.
The `sale_info.unwrap()` on line 754 is modelled by the NoneUnwrap error. -/
def accept_paydown_party (ctx : Ctx) (info : MessageInfo) (d : Paydown) :
    Except ContractError ContractParty :=
  match d.kind with
  | PaydownKind.PaydownOnly =>
    if ctx.contract_info.facility.warehouse ≠ info.sender then
      Except.error ContractError.Unauthorized
    else Except.ok ContractParty.Warehouse
  | PaydownKind.PaydownAndSell =>
    if ctx.contract_info.facility.warehouse = info.sender then
      Except.ok ContractParty.Warehouse
    else
      match d.sale_info with
      | none => Except.error ContractError.NoneUnwrap
      | some si =>
        if si.buyer = info.sender then Except.ok ContractParty.Buyer
        else Except.error ContractError.Unauthorized

/-- State update of `accept_paydown` (warehouse-facility.rs lines 827-846):
record the accepting party, then transition to Accepted once the required
party set for the kind is contained in parties_accepted. -/
def accept_paydown_record (d : Paydown) (party : ContractParty) : Paydown :=
  let d1 := { d with parties_accepted := d.parties_accepted ++ [party] }
  match d1.kind with
  | PaydownKind.PaydownOnly =>
    if vec_contains d1.parties_accepted [ContractParty.Warehouse] then
      { d1 with state := PaydownState.Accepted }
    else d1
  | PaydownKind.PaydownAndSell =>
    if vec_contains d1.parties_accepted [ContractParty.Warehouse, ContractParty.Buyer] then
      { d1 with state := PaydownState.Accepted }
    else d1

/-- `accept_paydown` (warehouse-facility.rs lines 727-853). -/
def accept_paydown (ctx : Ctx) (info : MessageInfo) (id : String)
    (st : Ledger) : ExecResult :=
  match load_paydown st id with
  | none => (Except.error ContractError.NotFound, st)
  | some paydown =>
    match accept_paydown_party ctx info paydown with
    | Except.error e => (Except.error e, st)
    | Except.ok accepting_party =>
      if accepting_party ∈ paydown.parties_accepted then
        (Except.error (ContractError.PaydownPartyAlreadyAccepted accepting_party), st)
      else if paydown.state ≠ PaydownState.Proposed then
        (Except.error (ContractError.StateError
          "Unable to accept paydown: Paydown is not in the proposed state."), st)
      else if ¬ escrow_grant_ok ctx then
        (Except.error ContractError.MissingEscrowMarkerGrant, st)
      else
        let escrow_marker :=
          ctx.querier.byAddress ctx.contract_info.facility.escrow_marker
        if accepting_party = ContractParty.Buyer then
          -- buyer must attach the purchase price (lines 798-825); the
          -- sale_info.unwrap() calls are modelled by NoneUnwrap
          match info.funds.head? with
          | none => (Except.error ContractError.MissingPurchaseFunds, st)
          | some paydown_funds =>
            match paydown.sale_info with
            | none => (Except.error ContractError.NoneUnwrap, st)
            | some si =>
              if paydown_funds.denom ≠ ctx.contract_info.facility.stablecoin_denom ∨
                  paydown_funds.amount ≠ si.price then
                (Except.error (ContractError.InsufficientPurchaseFunds
                  si.price ctx.contract_info.facility.stablecoin_denom
                  paydown_funds.amount paydown_funds.denom), st)
              else
                let messages := [Msg.bankSend escrow_marker.address si.price
                  ctx.contract_info.facility.stablecoin_denom]
                (Except.ok (Response.mk messages [] []),
                  save_paydown st (accept_paydown_record paydown accepting_party))
        else
          (Except.ok (Response.mk [] [] []),
            save_paydown st (accept_paydown_record paydown accepting_party))

/-- Successful-branch ledger mutation of `cancel_paydown`
(warehouse-facility.rs lines 918-923): save the cancelled paydown, revert
its assets to Inventory. -/
def cancel_paydown_apply (st : Ledger) (d : Paydown) : Ledger :=
  let st1 := save_paydown st ({ d with state := PaydownState.Cancelled })
  Ledger.mk (set_assets_state st1.assets AssetState.Inventory d.assets)
    st1.pledges st1.paydowns

/-- `cancel_paydown` (warehouse-facility.rs lines 855-929). -/
def cancel_paydown (ctx : Ctx) (_info : MessageInfo) (id : String)
    (st : Ledger) : ExecResult :=
  match load_paydown st id with
  | none => (Except.error ContractError.NotFound, st)
  | some paydown =>
    if ¬ (paydown.state = PaydownState.Proposed ∨ paydown.state = PaydownState.Accepted) then
      (Except.error (ContractError.StateError
        "Unable to cancel paydown: Paydown is not in the proposed or accepted state."), st)
    else if ¬ escrow_grant_ok ctx then
      (Except.error ContractError.MissingEscrowMarkerGrant, st)
    else
      let escrow_marker :=
        ctx.querier.byAddress ctx.contract_info.facility.escrow_marker
      let base_msgs := [Msg.withdrawCoins escrow_marker.denom
        paydown.total_paydown ctx.contract_info.facility.stablecoin_denom
        ctx.contract_info.facility.originator]
      if paydown.kind = PaydownKind.PaydownAndSell ∧
          vec_contains paydown.parties_accepted [ContractParty.Buyer] then
        match paydown.sale_info with
        | none => (Except.error ContractError.NoneUnwrap, st)
        | some si =>
          let messages := base_msgs ++ [Msg.withdrawCoins escrow_marker.denom
            si.price ctx.contract_info.facility.stablecoin_denom si.buyer]
          (Except.ok (Response.mk messages [] []), cancel_paydown_apply st paydown)
      else
        (Except.ok (Response.mk base_msgs [] []), cancel_paydown_apply st paydown)

/-- Closing a pledge record (the Executed to Closed side effect). -/
def closePledge (p : Pledge) : Pledge :=
  { p with state := PledgeState.Closed }

/-- The pledge-closing loop of `execute_paydown` (warehouse-facility.rs
lines 1016-1041): for each closed pledge id, set its state to Closed and
emit the marker retirement instructions.  A missing pledge record (which
would surface the storage error mid-loop in the source) cannot occur since
the ids come from the pledge store itself. -/
def close_pledges_loop (q : Querier) (originator : String) :
    List String → List Pledge → List Msg → List Pledge × List Msg
  | [], pl, ms => (pl, ms)
  | pid :: rest, pl, ms =>
    match loadRec Pledge.id pl pid with
    | none => close_pledges_loop q originator rest pl ms
    | some p =>
      let asset_marker := q.byDenom p.asset_marker_denom
      close_pledges_loop q originator rest
        (saveRec Pledge.id pl (closePledge p))
        (ms ++ [
          Msg.transferMarkerCoins 1 p.asset_marker_denom asset_marker.address originator,
          Msg.cancelMarker p.asset_marker_denom,
          Msg.destroyMarker p.asset_marker_denom])

/-- The post-guard ledger state of `execute_paydown` before pledge closing
(warehouse-facility.rs lines 985-990): paydown saved as Executed, its
assets removed from the inventory. -/
def execute_paydown_base (st : Ledger) (d : Paydown) : Ledger :=
  let st1 := save_paydown st ({ d with state := PaydownState.Executed })
  Ledger.mk (remove_assets st1.assets d.assets) st1.pledges st1.paydowns

/-- The closed-pledges computation of `execute_paydown`
(warehouse-facility.rs lines 1004-1014): affected pledges none of whose
assets remain in the post-removal inventory. -/
def execute_paydown_closed (st1 : Ledger) (affected : List String) : List String :=
  affected.filter (fun pid =>
    match load_pledge st1 pid with
    | some p => ¬ vec_has_any (list_inventory st1) p.assets
    | none => false)

/-- `execute_paydown` (warehouse-facility.rs lines 931-1050). -/
def execute_paydown (ctx : Ctx) (_info : MessageInfo) (id : String)
    (st : Ledger) : ExecResult :=
  match load_paydown st id with
  | none => (Except.error ContractError.NotFound, st)
  | some paydown =>
    if paydown.state ≠ PaydownState.Accepted then
      (Except.error (ContractError.StateError
        "Unable to execute paydown: Paydown is not in the accepted state."), st)
    else if ¬ escrow_grant_ok ctx then
      (Except.error ContractError.MissingEscrowMarkerGrant, st)
    else
      let escrow_marker :=
        ctx.querier.byAddress ctx.contract_info.facility.escrow_marker
      let base_msgs := [Msg.withdrawCoins escrow_marker.denom
        paydown.total_paydown ctx.contract_info.facility.stablecoin_denom
        ctx.contract_info.facility.warehouse]
      let sale_msgs : Except ContractError (List Msg) :=
        if paydown.kind = PaydownKind.PaydownAndSell then
          match paydown.sale_info with
          | none => Except.error ContractError.NoneUnwrap
          | some si => Except.ok [Msg.withdrawCoins escrow_marker.denom si.price
              ctx.contract_info.facility.stablecoin_denom
              ctx.contract_info.facility.originator]
        else Except.ok []
      match sale_msgs with
      | Except.error e => (Except.error e, st)
      | Except.ok extra =>
        let st1 := execute_paydown_base st paydown
        let affected := find_pledge_ids_with_assets st1.pledges paydown.assets
          (some PledgeState.Executed)
        let closed := execute_paydown_closed st1 affected
        let result := close_pledges_loop ctx.querier
          ctx.contract_info.facility.originator closed st1.pledges (base_msgs ++ extra)
        (Except.ok (Response.mk result.2 affected closed),
          Ledger.mk st1.assets result.1 st1.paydowns)

/-- `ExecuteMsg` from crate::msg: the execute-entrypoint messages of the
pledge and paydown engines. -/
inductive ExecuteMsg
  | ProposePledge (id : String) (assets : List String) (total_advance : Nat)
      (asset_marker_denom : String)
  | AcceptPledge (id : String)
  | CancelPledge (id : String)
  | ExecutePledge (id : String)
  | ProposePaydown (id : String) (assets : List String) (total_paydown : Nat)
  | ProposePaydownAndSell (id : String) (assets : List String)
      (total_paydown : Nat) (buyer : String) (purchase_price : Nat)
  | AcceptPaydown (id : String)
  | CancelPaydown (id : String)
  | ExecutePaydown (id : String)

/-- The `execute` entrypoint dispatch (warehouse-facility.rs lines 161-221).
The caller-authorization pre-check is an excluded collaborator (section 1);
omitting it only enlarges the set of behaviors quantified over. -/
def execute (ctx : Ctx) (info : MessageInfo) (msg : ExecuteMsg) (st : Ledger) :
    ExecResult :=
  match msg with
  | ExecuteMsg.ProposePledge id assets total_advance asset_marker_denom =>
    propose_pledge ctx info id assets total_advance asset_marker_denom st
  | ExecuteMsg.AcceptPledge id => accept_pledge ctx info id st
  | ExecuteMsg.CancelPledge id => cancel_pledge ctx info id st
  | ExecuteMsg.ExecutePledge id => execute_pledge ctx info id st
  | ExecuteMsg.ProposePaydown id assets total_paydown =>
    propose_paydown ctx info id assets total_paydown st
  | ExecuteMsg.ProposePaydownAndSell id assets total_paydown buyer price =>
    propose_paydown_and_sell ctx info id assets total_paydown buyer price st
  | ExecuteMsg.AcceptPaydown id => accept_paydown ctx info id st
  | ExecuteMsg.CancelPaydown id => cancel_paydown ctx info id st
  | ExecuteMsg.ExecutePaydown id => execute_paydown ctx info id st

/-- The empty initial ledger. -/
def initLedger : Ledger := Ledger.mk [] [] []

/-- Ledger states reachable from the empty ledger by any sequence of
execute-entrypoint calls (arbitrary context, caller and funds each step). -/
inductive Reachable : Ledger → Prop
  | init : Reachable initLedger
  | step (ctx : Ctx) (info : MessageInfo) (msg : ExecuteMsg) (st : Ledger) :
      Reachable st → Reachable (execute ctx info msg st).2

/-- A pledge is open (reserving its assets) in states Proposed, Accepted. -/
def pledgeOpen (p : Pledge) : Prop :=
  p.state = PledgeState.Proposed ∨ p.state = PledgeState.Accepted

/-- A paydown is open (reserving its assets) in states Proposed, Accepted. -/
def paydownOpen (d : Paydown) : Prop :=
  d.state = PaydownState.Proposed ∨ d.state = PaydownState.Accepted

instance (p : Pledge) : Decidable (pledgeOpen p) := by unfold pledgeOpen; infer_instance

instance (d : Paydown) : Decidable (paydownOpen d) := by unfold paydownOpen; infer_instance

/-- The legal pledge-state edges of the specification (section 8). -/
def pledgeEdgeOk : PledgeState → PledgeState → Bool
  | PledgeState.Proposed, PledgeState.Accepted => true
  | PledgeState.Proposed, PledgeState.Cancelled => true
  | PledgeState.Accepted, PledgeState.Executed => true
  | PledgeState.Accepted, PledgeState.Cancelled => true
  | PledgeState.Executed, PledgeState.Closed => true
  | _, _ => false

/-- The legal paydown-state edges of the specification (section 8). -/
def paydownEdgeOk : PaydownState → PaydownState → Bool
  | PaydownState.Proposed, PaydownState.Accepted => true
  | PaydownState.Proposed, PaydownState.Cancelled => true
  | PaydownState.Accepted, PaydownState.Executed => true
  | PaydownState.Accepted, PaydownState.Cancelled => true
  | _, _ => false

/-- The ledger after `execute_paydown` succeeds, as a function of the
loaded paydown (the message accumulator of the closing loop does not
influence the pledge store, so it is existentially quantified in the
shape lemma). -/
def execute_paydown_final (q : Querier) (orig : String) (st : Ledger)
    (d : Paydown) (ms : List Msg) : Ledger :=
  let st1 := execute_paydown_base st d
  let affected := find_pledge_ids_with_assets st1.pledges d.assets
    (some PledgeState.Executed)
  let closed := execute_paydown_closed st1 affected
  Ledger.mk st1.assets (close_pledges_loop q orig closed st1.pledges ms).1 st1.paydowns



/-- The master ledger invariant maintained by every operation, from which
the inventory-consistency properties follow:
well-formed keys; open pledges reserve their assets as PledgeProposed and
do not share assets; a PaydownProposed record belongs to an open paydown;
open paydowns reserve their assets as PaydownProposed and do not share
assets; and every asset recorded Inventory or PaydownProposed belongs to
an Executed pledge. -/
structure Inv (st : Ledger) : Prop where
  wfA : (st.assets.map Prod.fst).Nodup
  wfP : (st.pledges.map Pledge.id).Nodup
  wfD : (st.paydowns.map Paydown.id).Nodup
  openPledgeAssets : ∀ p ∈ st.pledges, pledgeOpen p → ∀ a ∈ p.assets,
    lookupA st.assets a = some AssetState.PledgeProposed
  openPledgeUnique : ∀ p ∈ st.pledges, ∀ q ∈ st.pledges, pledgeOpen p →
    pledgeOpen q → ∀ a, a ∈ p.assets → a ∈ q.assets → p.id = q.id
  paydownProposedRecord : ∀ a, lookupA st.assets a = some AssetState.PaydownProposed →
    ∃ d ∈ st.paydowns, paydownOpen d ∧ a ∈ d.assets
  openPaydownAssets : ∀ d ∈ st.paydowns, paydownOpen d → ∀ a ∈ d.assets,
    lookupA st.assets a = some AssetState.PaydownProposed
  openPaydownUnique : ∀ d ∈ st.paydowns, ∀ e ∈ st.paydowns, paydownOpen d →
    paydownOpen e → ∀ a, a ∈ d.assets → a ∈ e.assets → d.id = e.id
  execWitness : ∀ a s, lookupA st.assets a = some s →
    s = AssetState.Inventory ∨ s = AssetState.PaydownProposed →
    ∃ p ∈ st.pledges, p.state = PledgeState.Executed ∧ a ∈ p.assets


/-- Every paydown record has each party accepted at most once. -/
def PartiesInv (st : Ledger) : Prop :=
  ∀ d ∈ st.paydowns, d.parties_accepted.Nodup

/-- Every paydown record has sale information present iff its kind is
PaydownAndSell. -/
def SaleInfoInv (st : Ledger) : Prop :=
  ∀ d ∈ st.paydowns, (d.sale_info.isSome = true ↔ d.kind = PaydownKind.PaydownAndSell)

/-- Concrete fixture: facility configuration (warehouse w, originator o,
escrow account esc, settlement denom usd). -/
def facW : Facility := Facility.mk "w" "o" "esc" "usd"

/-- Concrete fixture: querier whose escrow marker grants the contract
Transfer and Withdraw. -/
def qW : Querier := Querier.mk
  (fun _ => Marker.mk "escaddr" "escdenom"
    [AccessGrant.mk "contract" [MarkerAccess.Transfer, MarkerAccess.Withdraw]])
  (fun dn => Marker.mk "markeraddr" dn [])

/-- Concrete fixture: call context. -/
def ctxW : Ctx := Ctx.mk "contract" qW (ContractInfo.mk facW)

/-- Concrete fixture: a call with no funds attached. -/
def infoW (s : String) : MessageInfo := MessageInfo.mk s []

/-- Concrete fixture: a call with one coin attached. -/
def infoWF (s : String) (amt : Nat) (dn : String) : MessageInfo :=
  MessageInfo.mk s [Coin.mk dn amt]

/-- Fixture state: pledge P1 over assets a, b proposed. -/
def stP1 : Ledger :=
  (execute ctxW (infoW "o")
    (ExecuteMsg.ProposePledge "P1" ["a", "b"] 1000 "amd") initLedger).2

/-- Fixture state: P1 accepted with matching funds. -/
def stP2 : Ledger :=
  (execute ctxW (infoWF "w" 1000 "usd") (ExecuteMsg.AcceptPledge "P1") stP1).2

/-- Fixture state: P1 executed; a, b in inventory. -/
def stP3 : Ledger :=
  (execute ctxW (infoW "w") (ExecuteMsg.ExecutePledge "P1") stP2).2

/-- Fixture state: paydown D1 over a proposed. -/
def stP4 : Ledger :=
  (execute ctxW (infoWF "o" 100 "usd")
    (ExecuteMsg.ProposePaydown "D1" ["a"] 100) stP3).2

/-- Fixture state: D1 accepted by the warehouse. -/
def stP5 : Ledger :=
  (execute ctxW (infoW "w") (ExecuteMsg.AcceptPaydown "D1") stP4).2

/-- Fixture state: D1 executed; a leaves inventory, P1 stays Executed. -/
def stP6 : Ledger :=
  (execute ctxW (infoW "w") (ExecuteMsg.ExecutePaydown "D1") stP5).2

/-- Fixture state: paydown-and-sell E1 over a proposed at stP3. -/
def stE4 : Ledger :=
  (execute ctxW (infoWF "o" 100 "usd")
    (ExecuteMsg.ProposePaydownAndSell "E1" ["a"] 100 "B" 500) stP3).2

section StoreLemmas

variable {α : Type} (key : α → String)

theorem loadRec_saveRec_self (l : List α) (v : α) :
    loadRec key (saveRec key l v) (key v) = some v := by
  induction l with
  | nil => simp [saveRec, loadRec]
  | cons x rest ih =>
    by_cases h : key x = key v
    · simp [saveRec, h, loadRec]
    · simp [saveRec, h, loadRec, ih]

theorem loadRec_saveRec_ne (l : List α) (v : α) (id : String) (h : id ≠ key v) :
    loadRec key (saveRec key l v) id = loadRec key l id := by
  induction l with
  | nil =>
    simp only [saveRec, loadRec]
    rw [if_neg (fun hh => h hh.symm)]
  | cons x rest ih =>
    by_cases hx : key x = key v
    · simp only [saveRec, if_pos hx, loadRec]
      rw [if_neg (fun hh => h hh.symm), if_neg (fun hh => h (hx ▸ hh).symm)]
    · simp only [saveRec, if_neg hx, loadRec]
      by_cases hxi : key x = id
      · simp [hxi]
      · simp [hxi, ih]

theorem mem_of_loadRec {l : List α} {id : String} {x : α}
    (h : loadRec key l id = some x) : x ∈ l ∧ key x = id := by
  induction l with
  | nil => simp [loadRec] at h
  | cons y rest ih =>
    simp only [loadRec] at h
    by_cases hy : key y = id
    · rw [if_pos hy] at h
      cases h
      exact ⟨List.mem_cons_self _ _, hy⟩
    · rw [if_neg hy] at h
      obtain ⟨hm, hk⟩ := ih h
      exact ⟨List.mem_cons_of_mem _ hm, hk⟩

theorem mem_saveRec {l : List α} {v x : α} (h : x ∈ saveRec key l v) :
    x = v ∨ x ∈ l := by
  induction l with
  | nil => simp [saveRec] at h; exact Or.inl h
  | cons y rest ih =>
    simp only [saveRec] at h
    by_cases hy : key y = key v
    · rw [if_pos hy] at h
      rcases List.mem_cons.mp h with h | h
      · exact Or.inl h
      · exact Or.inr (List.mem_cons_of_mem _ h)
    · rw [if_neg hy] at h
      rcases List.mem_cons.mp h with h | h
      · exact Or.inr (h ▸ List.mem_cons_self _ _)
      · rcases ih h with h | h
        · exact Or.inl h
        · exact Or.inr (List.mem_cons_of_mem _ h)

theorem mem_saveRec_of_mem_ne {l : List α} {v x : α} (hx : x ∈ l)
    (h : key x ≠ key v) : x ∈ saveRec key l v := by
  induction l with
  | nil => simp at hx
  | cons y rest ih =>
    simp only [saveRec]
    rcases List.mem_cons.mp hx with rfl | hx
    · rw [if_neg h]
      exact List.mem_cons_self _ _
    · by_cases hy : key y = key v
      · rw [if_pos hy]
        exact List.mem_cons_of_mem _ hx
      · rw [if_neg hy]
        exact List.mem_cons_of_mem _ (ih hx)

theorem keys_saveRec_of_found (l : List α) (v : α)
    (h : (loadRec key l (key v)).isSome) :
    (saveRec key l v).map key = l.map key := by
  induction l with
  | nil => simp [loadRec] at h
  | cons y rest ih =>
    by_cases hy : key y = key v
    · simp [saveRec, hy]
    · simp only [loadRec] at h
      rw [if_neg (fun hh => hy (hh.trans rfl))] at h
      simp [saveRec, hy, ih h]

theorem keys_saveRec_of_not_found (l : List α) (v : α)
    (h : loadRec key l (key v) = none) :
    (saveRec key l v).map key = l.map key ++ [key v] := by
  induction l with
  | nil => simp [saveRec]
  | cons y rest ih =>
    simp only [loadRec] at h
    by_cases hy : key y = key v
    · rw [if_pos hy] at h; cases h
    · rw [if_neg hy] at h
      simp [saveRec, hy, ih h]

theorem loadRec_eq_none_iff (l : List α) (id : String) :
    loadRec key l id = none ↔ id ∉ l.map key := by
  induction l with
  | nil => simp [loadRec]
  | cons y rest ih =>
    simp only [loadRec, List.map_cons, List.mem_cons]
    by_cases hy : key y = id
    · rw [if_pos hy]
      simp [hy]
    · rw [if_neg hy]
      simp only [ih]
      constructor
      · intro hn
        rintro (h | h)
        · exact hy h.symm
        · exact hn h
      · intro hn h
        exact hn (Or.inr h)

theorem nodup_keys_saveRec {l : List α} (v : α)
    (h : (l.map key).Nodup) : ((saveRec key l v).map key).Nodup := by
  cases hf : loadRec key l (key v) with
  | some x => rw [keys_saveRec_of_found key l v (by rw [hf]; rfl)]; exact h
  | none =>
    rw [keys_saveRec_of_not_found key l v hf]
    rw [List.nodup_append]
    refine ⟨h, List.nodup_singleton _, ?_⟩
    intro b hb hbv
    rw [List.mem_singleton] at hbv
    subst hbv
    exact (loadRec_eq_none_iff key l (key v)).mp hf hb

theorem loadRec_of_mem_nodup {l : List α} {x : α} (h : (l.map key).Nodup)
    (hx : x ∈ l) : loadRec key l (key x) = some x := by
  induction l with
  | nil => simp at hx
  | cons y rest ih =>
    simp only [List.map_cons, List.nodup_cons] at h
    rcases List.mem_cons.mp hx with rfl | hx'
    · simp [loadRec]
    · simp only [loadRec]
      by_cases hy : key y = key x
      · exact absurd (hy ▸ List.mem_map_of_mem key hx') h.1
      · rw [if_neg hy]
        exact ih h.2 hx'

theorem mem_saveRec_precise {l : List α} {v x : α} (h : (l.map key).Nodup)
    (hx : x ∈ saveRec key l v) :
    x = v ∨ (key x ≠ key v ∧ x ∈ l) := by
  induction l with
  | nil => simp [saveRec] at hx; exact Or.inl hx
  | cons y rest ih =>
    simp only [List.map_cons, List.nodup_cons] at h
    simp only [saveRec] at hx
    by_cases hy : key y = key v
    · rw [if_pos hy] at hx
      rcases List.mem_cons.mp hx with rfl | hx'
      · exact Or.inl rfl
      · right
        refine ⟨?_, List.mem_cons_of_mem _ hx'⟩
        intro hk
        exact h.1 (by rw [hy, ← hk]; exact List.mem_map_of_mem key hx')
    · rw [if_neg hy] at hx
      rcases List.mem_cons.mp hx with rfl | hx'
      · exact Or.inr ⟨hy, List.mem_cons_self _ _⟩
      · rcases ih h.2 hx' with h' | h'
        · exact Or.inl h'
        · exact Or.inr ⟨h'.1, List.mem_cons_of_mem _ h'.2⟩

end StoreLemmas

section AssetLemmas

theorem lookupA_upsert (l : List (String × AssetState)) (a : String)
    (s : AssetState) (b : String) :
    lookupA (upsertAsset l a s) b = if b = a then some s else lookupA l b := by
  induction l with
  | nil =>
    simp only [upsertAsset, lookupA]
    by_cases h : a = b
    · rw [if_pos h, if_pos h.symm]
    · rw [if_neg h, if_neg (fun hh => h hh.symm)]
  | cons p rest ih =>
    obtain ⟨k, t⟩ := p
    simp only [upsertAsset]
    by_cases hk : k = a
    · rw [if_pos hk]
      simp only [lookupA]
      by_cases hab : a = b
      · rw [if_pos hab, if_pos hab.symm]
      · rw [if_neg hab, if_neg (fun hh => hab hh.symm),
          if_neg (fun hh : k = b => hab (hk.symm.trans hh))]
    · rw [if_neg hk]
      simp only [lookupA]
      by_cases hkb : k = b
      · rw [if_pos hkb, if_neg (fun hh : b = a => hk (hkb.trans hh)), if_pos hkb]
      · rw [if_neg hkb, ih]
        by_cases hba : b = a
        · rw [if_pos hba, if_pos hba]
        · rw [if_neg hba, if_neg hba, if_neg hkb]

theorem lookupA_set_assets_state (ids : List String) (l : List (String × AssetState))
    (s : AssetState) (b : String) :
    lookupA (set_assets_state l s ids) b =
      if b ∈ ids then some s else lookupA l b := by
  induction ids generalizing l with
  | nil => simp [set_assets_state]
  | cons i rest ih =>
    have hstep : set_assets_state l s (i :: rest) =
        set_assets_state (upsertAsset l i s) s rest := by
      simp [set_assets_state, List.foldl_cons]
    rw [hstep, ih]
    by_cases hb : b ∈ rest
    · rw [if_pos hb, if_pos (List.mem_cons_of_mem _ hb)]
    · rw [if_neg hb, lookupA_upsert]
      by_cases hbi : b = i
      · subst hbi
        rw [if_pos rfl, if_pos (List.mem_cons_self _ _)]
      · rw [if_neg hbi, if_neg (by simp [hbi, hb])]

theorem lookupA_remove_assets (l : List (String × AssetState)) (ids : List String)
    (b : String) :
    lookupA (remove_assets l ids) b = if b ∈ ids then none else lookupA l b := by
  induction l with
  | nil => simp [remove_assets, lookupA]
  | cons p rest ih =>
    obtain ⟨k, t⟩ := p
    by_cases hk : k ∈ ids
    · have hstep : remove_assets ((k, t) :: rest) ids = remove_assets rest ids := by
        simp [remove_assets, List.filter_cons, hk]
      rw [hstep, ih]
      by_cases hb : b ∈ ids
      · rw [if_pos hb, if_pos hb]
      · rw [if_neg hb, if_neg hb]
        simp only [lookupA]
        rw [if_neg (fun hh : k = b => hb (hh ▸ hk))]
    · have hstep : remove_assets ((k, t) :: rest) ids =
          (k, t) :: remove_assets rest ids := by
        simp [remove_assets, List.filter_cons, hk]
      rw [hstep]
      simp only [lookupA]
      by_cases hkb : k = b
      · rw [if_pos hkb, if_neg (fun hh : b ∈ ids => hk (hkb ▸ hh)), if_pos hkb]
      · rw [if_neg hkb, ih]
        by_cases hb : b ∈ ids
        · rw [if_pos hb, if_pos hb]
        · rw [if_neg hb, if_neg hb, if_neg hkb]

theorem mem_of_lookupA {l : List (String × AssetState)} {a : String}
    {s : AssetState} (h : lookupA l a = some s) : (a, s) ∈ l := by
  induction l with
  | nil => simp [lookupA] at h
  | cons p rest ih =>
    obtain ⟨k, t⟩ := p
    simp only [lookupA] at h
    by_cases hk : k = a
    · rw [if_pos hk] at h
      cases h
      subst hk
      exact List.mem_cons_self _ _
    · rw [if_neg hk] at h
      exact List.mem_cons_of_mem _ (ih h)

theorem lookupA_of_mem_nodup {l : List (String × AssetState)} {a : String}
    {s : AssetState} (hnd : (l.map Prod.fst).Nodup) (h : (a, s) ∈ l) :
    lookupA l a = some s := by
  induction l with
  | nil => simp at h
  | cons p rest ih =>
    obtain ⟨k, t⟩ := p
    simp only [List.map_cons, List.nodup_cons] at hnd
    rcases List.mem_cons.mp h with h' | h'
    · cases h'
      simp [lookupA]
    · simp only [lookupA]
      by_cases hk : k = a
      · subst hk
        exact absurd (List.mem_map_of_mem Prod.fst h') (by simpa using hnd.1)
      · rw [if_neg hk]
        exact ih hnd.2 h'

theorem keys_upsert (l : List (String × AssetState)) (a : String) (s : AssetState) :
    ((upsertAsset l a s).map Prod.fst) =
      if a ∈ l.map Prod.fst then l.map Prod.fst else l.map Prod.fst ++ [a] := by
  induction l with
  | nil => simp [upsertAsset]
  | cons p rest ih =>
    obtain ⟨k, t⟩ := p
    simp only [upsertAsset, List.map_cons, List.mem_cons]
    by_cases hk : k = a
    · subst hk
      simp
    · rw [if_neg hk]
      simp only [List.map_cons, ih]
      by_cases ha : a ∈ rest.map Prod.fst
      · rw [if_pos ha, if_pos (Or.inr ha)]
      · rw [if_neg ha, if_neg (by rintro (h | h); exact hk h.symm; exact ha h)]
        simp

theorem nodup_keys_upsert {l : List (String × AssetState)} (a : String)
    (s : AssetState) (h : (l.map Prod.fst).Nodup) :
    ((upsertAsset l a s).map Prod.fst).Nodup := by
  rw [keys_upsert]
  by_cases ha : a ∈ l.map Prod.fst
  · rw [if_pos ha]; exact h
  · rw [if_neg ha]
    rw [List.nodup_append]
    exact ⟨h, List.nodup_singleton _, by
      intro b hb hbv
      rw [List.mem_singleton] at hbv
      subst hbv
      exact ha hb⟩

theorem nodup_keys_set_assets_state (ids : List String)
    {l : List (String × AssetState)} (s : AssetState)
    (h : (l.map Prod.fst).Nodup) :
    ((set_assets_state l s ids).map Prod.fst).Nodup := by
  induction ids generalizing l with
  | nil => simpa [set_assets_state] using h
  | cons i rest ih =>
    have hstep : set_assets_state l s (i :: rest) =
        set_assets_state (upsertAsset l i s) s rest := by
      simp [set_assets_state, List.foldl_cons]
    rw [hstep]
    exact ih (nodup_keys_upsert i s h)

theorem nodup_keys_remove_assets {l : List (String × AssetState)}
    (ids : List String) (h : (l.map Prod.fst).Nodup) :
    ((remove_assets l ids).map Prod.fst).Nodup := by
  have : (remove_assets l ids).map Prod.fst |>.Sublist (l.map Prod.fst) :=
    List.Sublist.map Prod.fst (List.filter_sublist l)
  exact List.Nodup.sublist this h

end AssetLemmas

section QueryLemmas

theorem vec_contains_iff [DecidableEq α] (a b : List α) :
    vec_contains a b = true ↔ ∀ x ∈ b, x ∈ a := by
  simp [vec_contains, List.all_eq_true]

theorem vec_has_any_iff [DecidableEq α] (a b : List α) :
    vec_has_any a b = true ↔ ∃ x ∈ b, x ∈ a := by
  simp [vec_has_any, List.any_eq_true]

theorem mem_get_asset_ids_some (l : List (String × AssetState)) (s : AssetState)
    (b : String) : b ∈ get_asset_ids l (some s) ↔ (b, s) ∈ l := by
  simp only [get_asset_ids, List.mem_map, List.mem_filter]
  constructor
  · rintro ⟨⟨k, t⟩, ⟨hm, ht⟩, rfl⟩
    simp only [decide_eq_true_eq] at ht
    subst ht
    exact hm
  · intro h
    exact ⟨(b, s), ⟨h, by simp⟩, rfl⟩

theorem mem_get_asset_ids_none (l : List (String × AssetState)) (b : String) :
    b ∈ get_asset_ids l none ↔ ∃ s, (b, s) ∈ l := by
  simp only [get_asset_ids, List.mem_map]
  constructor
  · rintro ⟨⟨k, t⟩, hm, rfl⟩
    exact ⟨t, hm⟩
  · rintro ⟨s, hm⟩
    exact ⟨(b, s), hm, rfl⟩

theorem mem_get_asset_ids_by_filter (l : List (String × AssetState))
    (states : List AssetState) (b : String) :
    b ∈ get_asset_ids_by_filter l states ↔ ∃ s ∈ states, (b, s) ∈ l := by
  simp only [get_asset_ids_by_filter, List.mem_map, List.mem_filter]
  constructor
  · rintro ⟨⟨k, t⟩, ⟨hm, ht⟩, rfl⟩
    simp only [decide_eq_true_eq] at ht
    exact ⟨t, ht, hm⟩
  · rintro ⟨s, hs, hm⟩
    exact ⟨(b, s), ⟨hm, by simpa using hs⟩, rfl⟩

theorem mem_list_inventory (st : Ledger) (b : String) :
    b ∈ list_inventory st ↔
      (b, AssetState.Inventory) ∈ st.assets ∨
      (b, AssetState.PaydownProposed) ∈ st.assets := by
  rw [list_inventory, mem_get_asset_ids_by_filter]
  constructor
  · rintro ⟨s, hs, hm⟩
    rcases List.mem_cons.mp hs with rfl | hs
    · exact Or.inl hm
    · rw [List.mem_singleton] at hs
      subst hs
      exact Or.inr hm
  · rintro (h | h)
    · exact ⟨AssetState.Inventory, by simp, h⟩
    · exact ⟨AssetState.PaydownProposed, by simp, h⟩

theorem mem_list_inventory_lookup (st : Ledger) (b : String)
    (hnd : (st.assets.map Prod.fst).Nodup) :
    b ∈ list_inventory st ↔
      lookupA st.assets b = some AssetState.Inventory ∨
      lookupA st.assets b = some AssetState.PaydownProposed := by
  rw [mem_list_inventory]
  constructor
  · rintro (h | h)
    · exact Or.inl (lookupA_of_mem_nodup hnd h)
    · exact Or.inr (lookupA_of_mem_nodup hnd h)
  · rintro (h | h)
    · exact Or.inl (mem_of_lookupA h)
    · exact Or.inr (mem_of_lookupA h)

theorem mem_find_pledge_ids (pledges : List Pledge) (assets : List String)
    (s : PledgeState) (pid : String) :
    pid ∈ find_pledge_ids_with_assets pledges assets (some s) ↔
      ∃ p ∈ pledges, p.id = pid ∧ p.state = s ∧ ∃ a ∈ p.assets, a ∈ assets := by
  simp only [find_pledge_ids_with_assets, List.mem_map, List.mem_filter,
    Bool.and_eq_true, decide_eq_true_eq]
  constructor
  · rintro ⟨p, ⟨hm, hst, hany⟩, rfl⟩
    refine ⟨p, hm, rfl, hst, ?_⟩
    obtain ⟨x, hx, hxa⟩ := (vec_has_any_iff _ _).mp hany
    exact ⟨x, hxa, hx⟩
  · rintro ⟨p, hm, rfl, hst, a, ha, has⟩
    exact ⟨p, ⟨hm, hst, (vec_has_any_iff _ _).mpr ⟨a, has, ha⟩⟩, rfl⟩

end QueryLemmas

section CloseLoopLemmas

theorem closePledge_idem (p : Pledge) : closePledge (closePledge p) = closePledge p := rfl

theorem closePledge_id (p : Pledge) : (closePledge p).id = p.id := rfl

theorem loadRec_close_loop_none (q : Querier) (orig : String)
    (ids : List String) (pl : List Pledge) (ms : List Msg) (pid : String)
    (h : loadRec Pledge.id pl pid = none) :
    loadRec Pledge.id (close_pledges_loop q orig ids pl ms).1 pid = none := by
  induction ids generalizing pl ms with
  | nil => simpa [close_pledges_loop] using h
  | cons i rest ih =>
    simp only [close_pledges_loop]
    cases hi : loadRec Pledge.id pl i with
    | none => exact ih pl _ h
    | some p =>
      apply ih
      have hne : pid ≠ Pledge.id (closePledge p) := by
        intro hpe
        rw [closePledge_id] at hpe
        rw [hpe, (mem_of_loadRec Pledge.id hi).2] at h
        rw [h] at hi
        cases hi
      rw [loadRec_saveRec_ne Pledge.id pl (closePledge p) pid hne]
      exact h

theorem loadRec_close_loop_some (q : Querier) (orig : String)
    (ids : List String) (pl : List Pledge) (ms : List Msg) (pid : String)
    (p : Pledge) (h : loadRec Pledge.id pl pid = some p) :
    loadRec Pledge.id (close_pledges_loop q orig ids pl ms).1 pid =
      if pid ∈ ids then some (closePledge p) else some p := by
  induction ids generalizing pl ms p with
  | nil => simpa [close_pledges_loop] using h
  | cons i rest ih =>
    simp only [close_pledges_loop]
    cases hi : loadRec Pledge.id pl i with
    | none =>
      have hpi : pid ≠ i := by
        intro he
        rw [he, hi] at h
        cases h
      rw [ih pl _ p h]
      by_cases hr : pid ∈ rest
      · rw [if_pos hr, if_pos (List.mem_cons_of_mem _ hr)]
      · rw [if_neg hr, if_neg (by simp [hpi, hr])]
    | some p' =>
      have hp'id : Pledge.id p' = i := (mem_of_loadRec Pledge.id hi).2
      by_cases hpi : pid = i
      · subst hpi
        rw [h] at hi
        injection hi with hpp
        subst hpp
        have hload : loadRec Pledge.id
            (saveRec Pledge.id pl (closePledge p)) pid = some (closePledge p) := by
          have hk : Pledge.id (closePledge p) = pid := by
            rw [closePledge_id]
            exact hp'id
          rw [← hk]
          exact loadRec_saveRec_self Pledge.id pl (closePledge p)
        rw [ih _ _ (closePledge p) hload]
        by_cases hr : pid ∈ rest
        · rw [if_pos hr, if_pos (List.mem_cons_self _ _), closePledge_idem]
        · rw [if_neg hr, if_pos (List.mem_cons_self _ _)]
      · have hne : pid ≠ Pledge.id (closePledge p') := by
          rw [closePledge_id, hp'id]
          exact hpi
        have h2 : loadRec Pledge.id (saveRec Pledge.id pl (closePledge p')) pid = some p := by
          rw [loadRec_saveRec_ne Pledge.id pl (closePledge p') pid hne]
          exact h
        rw [ih _ _ p h2]
        by_cases hr : pid ∈ rest
        · rw [if_pos hr, if_pos (List.mem_cons_of_mem _ hr)]
        · rw [if_neg hr, if_neg (by simp [hpi, hr])]

theorem keys_close_pledges_loop (q : Querier) (orig : String)
    (ids : List String) (pl : List Pledge) (ms : List Msg) :
    ((close_pledges_loop q orig ids pl ms).1).map Pledge.id = pl.map Pledge.id := by
  induction ids generalizing pl ms with
  | nil => simp [close_pledges_loop]
  | cons i rest ih =>
    simp only [close_pledges_loop]
    cases hi : loadRec Pledge.id pl i with
    | none => exact ih pl _
    | some p =>
      rw [ih]
      have hpid : Pledge.id p = i := (mem_of_loadRec Pledge.id hi).2
      exact keys_saveRec_of_found Pledge.id pl (closePledge p)
        (by rw [show Pledge.id (closePledge p) = i from hpid, hi]; rfl)

theorem mem_close_loop_nodup (q : Querier) (orig : String)
    (ids : List String) (pl : List Pledge) (ms : List Msg) {x : Pledge}
    (hnd : (pl.map Pledge.id).Nodup)
    (hx : x ∈ (close_pledges_loop q orig ids pl ms).1) :
    x ∈ pl ∨ ∃ y ∈ pl, x = closePledge y := by
  have hndl : (((close_pledges_loop q orig ids pl ms).1).map Pledge.id).Nodup := by
    rw [keys_close_pledges_loop]
    exact hnd
  have hload := loadRec_of_mem_nodup Pledge.id hndl hx
  cases hp : loadRec Pledge.id pl (Pledge.id x) with
  | none =>
    rw [loadRec_close_loop_none q orig ids pl ms _ hp] at hload
    cases hload
  | some y =>
    have hym : y ∈ pl := (mem_of_loadRec Pledge.id hp).1
    rw [loadRec_close_loop_some q orig ids pl ms _ y hp] at hload
    by_cases hr : Pledge.id x ∈ ids
    · rw [if_pos hr] at hload
      injection hload with hxy
      exact Or.inr ⟨y, hym, hxy.symm⟩
    · rw [if_neg hr] at hload
      injection hload with hxy
      exact Or.inl (hxy ▸ hym)

end CloseLoopLemmas

section ShapeLemmas

theorem propose_pledge_shape (ctx : Ctx) (info : MessageInfo) (id : String)
    (assets : List String) (ta : Nat) (amd : String) (st : Ledger) :
    (propose_pledge ctx info id assets ta amd st).2 = st ∨
    (load_pledge st id = none ∧ any_assets_in_inventory st none assets = false ∧
      (propose_pledge ctx info id assets ta amd st).2 =
        propose_pledge_apply st (Pledge.mk id assets ta amd PledgeState.Proposed)) := by
  unfold propose_pledge
  cases hl : load_pledge st id with
  | some v => exact Or.inl rfl
  | none =>
    dsimp only
    split
    next h1 => exact Or.inl rfl
    next h1 =>
      split
      next h2 => exact Or.inl rfl
      next h2 => exact Or.inr ⟨rfl, by simpa using h1, rfl⟩

theorem accept_pledge_shape (ctx : Ctx) (info : MessageInfo) (id : String)
    (st : Ledger) :
    (accept_pledge ctx info id st).2 = st ∨
    (∃ p, load_pledge st id = some p ∧ p.state = PledgeState.Proposed ∧
      (accept_pledge ctx info id st).2 =
        save_pledge st ({ p with state := PledgeState.Accepted })) := by
  unfold accept_pledge
  cases hl : load_pledge st id with
  | none => exact Or.inl rfl
  | some p =>
    dsimp only
    split
    next h1 => exact Or.inl rfl
    next h1 =>
      split
      next h2 => exact Or.inl rfl
      next h2 =>
        cases info.funds.head? with
        | none => exact Or.inl rfl
        | some c =>
          dsimp only
          split
          next h3 => exact Or.inl rfl
          next h3 => exact Or.inr ⟨p, rfl, by simpa using h1, rfl⟩

theorem cancel_pledge_shape (ctx : Ctx) (info : MessageInfo) (id : String)
    (st : Ledger) :
    (cancel_pledge ctx info id st).2 = st ∨
    (∃ p, load_pledge st id = some p ∧ pledgeOpen p ∧
      (cancel_pledge ctx info id st).2 = cancel_pledge_apply st p) := by
  unfold cancel_pledge
  cases hl : load_pledge st id with
  | none => exact Or.inl rfl
  | some p =>
    dsimp only
    split
    next h1 => exact Or.inl rfl
    next h1 =>
      split
      next h2 => exact Or.inl rfl
      next h2 => exact Or.inr ⟨p, rfl, not_not.mp h1, rfl⟩

theorem execute_pledge_shape (ctx : Ctx) (info : MessageInfo) (id : String)
    (st : Ledger) :
    (execute_pledge ctx info id st).2 = st ∨
    (∃ p, load_pledge st id = some p ∧ p.state = PledgeState.Accepted ∧
      (execute_pledge ctx info id st).2 = execute_pledge_apply st p) := by
  unfold execute_pledge
  cases hl : load_pledge st id with
  | none => exact Or.inl rfl
  | some p =>
    dsimp only
    split
    next h1 => exact Or.inl rfl
    next h1 =>
      split
      next h2 => exact Or.inl rfl
      next h2 => exact Or.inr ⟨p, rfl, by simpa using h1, rfl⟩

theorem propose_paydown_common_shape (ctx : Ctx) (info : MessageInfo)
    (id : String) (d : Paydown) (st : Ledger) :
    (propose_paydown_common ctx info id d st).2 = st ∨
    (load_paydown st id = none ∧
      assets_in_inventory st (some AssetState.Inventory) d.assets = true ∧
      (propose_paydown_common ctx info id d st).2 = propose_paydown_apply st d) := by
  unfold propose_paydown_common
  cases hl : load_paydown st id with
  | some v => exact Or.inl rfl
  | none =>
    dsimp only
    split
    next h1 => exact Or.inl rfl
    next h1 =>
      split
      next h2 => exact Or.inl rfl
      next h2 =>
        cases info.funds.head? with
        | none => exact Or.inl rfl
        | some c =>
          dsimp only
          split
          next h3 => exact Or.inl rfl
          next h3 => exact Or.inr ⟨rfl, by simpa using h1, rfl⟩

theorem accept_paydown_shape (ctx : Ctx) (info : MessageInfo) (id : String)
    (st : Ledger) :
    (accept_paydown ctx info id st).2 = st ∨
    (∃ d party, load_paydown st id = some d ∧
      accept_paydown_party ctx info d = Except.ok party ∧
      party ∉ d.parties_accepted ∧ d.state = PaydownState.Proposed ∧
      (accept_paydown ctx info id st).2 =
        save_paydown st (accept_paydown_record d party)) := by
  unfold accept_paydown
  cases hl : load_paydown st id with
  | none => exact Or.inl rfl
  | some d =>
    dsimp only
    cases hp : accept_paydown_party ctx info d with
    | error e => exact Or.inl rfl
    | ok party =>
      dsimp only
      split
      next h1 => exact Or.inl rfl
      next h1 =>
        split
        next h2 => exact Or.inl rfl
        next h2 =>
          split
          next h3 => exact Or.inl rfl
          next h3 =>
            split
            next h4 =>
              cases info.funds.head? with
              | none => exact Or.inl rfl
              | some c =>
                dsimp only
                cases hsi : d.sale_info with
                | none => exact Or.inl rfl
                | some si =>
                  dsimp only
                  split
                  next h5 => exact Or.inl rfl
                  next h5 =>
                    exact Or.inr ⟨d, party, rfl, hp, h1, by simpa using h2, rfl⟩
            next h4 =>
              exact Or.inr ⟨d, party, rfl, hp, h1, by simpa using h2, rfl⟩

theorem cancel_paydown_shape (ctx : Ctx) (info : MessageInfo) (id : String)
    (st : Ledger) :
    (cancel_paydown ctx info id st).2 = st ∨
    (∃ d, load_paydown st id = some d ∧ paydownOpen d ∧
      (cancel_paydown ctx info id st).2 = cancel_paydown_apply st d) := by
  unfold cancel_paydown
  cases hl : load_paydown st id with
  | none => exact Or.inl rfl
  | some d =>
    dsimp only
    split
    next h1 => exact Or.inl rfl
    next h1 =>
      split
      next h2 => exact Or.inl rfl
      next h2 =>
        split
        next h3 =>
          cases hsi : d.sale_info with
          | none => exact Or.inl rfl
          | some si =>
            exact Or.inr ⟨d, rfl, not_not.mp h1, rfl⟩
        next h3 =>
          exact Or.inr ⟨d, rfl, not_not.mp h1, rfl⟩

theorem execute_paydown_shape (ctx : Ctx) (info : MessageInfo) (id : String)
    (st : Ledger) :
    (execute_paydown ctx info id st).2 = st ∨
    (∃ d ms, load_paydown st id = some d ∧ d.state = PaydownState.Accepted ∧
      (execute_paydown ctx info id st).2 =
        execute_paydown_final ctx.querier ctx.contract_info.facility.originator
          st d ms) := by
  unfold execute_paydown
  cases hl : load_paydown st id with
  | none => exact Or.inl rfl
  | some d =>
    dsimp only
    split
    next h1 => exact Or.inl rfl
    next h1 =>
      split
      next h2 => exact Or.inl rfl
      next h2 =>
        split
        next e he => exact Or.inl rfl
        next extra he =>
          refine Or.inr ⟨d,
            [Msg.withdrawCoins
              (ctx.querier.byAddress ctx.contract_info.facility.escrow_marker).denom
              d.total_paydown ctx.contract_info.facility.stablecoin_denom
              ctx.contract_info.facility.warehouse] ++ extra, rfl,
            by simpa using h1, ?_⟩
          rfl

end ShapeLemmas

section ErrorUnchanged

theorem execute_error_unchanged (ctx : Ctx) (info : MessageInfo)
    (msg : ExecuteMsg) (st : Ledger) :
    (execute ctx info msg st).1.isOk = true ∨ (execute ctx info msg st).2 = st := by
  unfold execute
  cases msg with
  | ProposePledge id assets ta amd =>
    dsimp only
    unfold propose_pledge
    cases load_pledge st id with
    | some v => exact Or.inr rfl
    | none =>
      dsimp only
      split
      · exact Or.inr rfl
      · split
        · exact Or.inr rfl
        · exact Or.inl rfl
  | AcceptPledge id =>
    dsimp only
    unfold accept_pledge
    cases load_pledge st id with
    | none => exact Or.inr rfl
    | some p =>
      dsimp only
      split
      · exact Or.inr rfl
      · split
        · exact Or.inr rfl
        · cases info.funds.head? with
          | none => exact Or.inr rfl
          | some c =>
            dsimp only
            split
            · exact Or.inr rfl
            · exact Or.inl rfl
  | CancelPledge id =>
    dsimp only
    unfold cancel_pledge
    cases load_pledge st id with
    | none => exact Or.inr rfl
    | some p =>
      dsimp only
      split
      · exact Or.inr rfl
      · split
        · exact Or.inr rfl
        · exact Or.inl rfl
  | ExecutePledge id =>
    dsimp only
    unfold execute_pledge
    cases load_pledge st id with
    | none => exact Or.inr rfl
    | some p =>
      dsimp only
      split
      · exact Or.inr rfl
      · split
        · exact Or.inr rfl
        · exact Or.inl rfl
  | ProposePaydown id assets tp =>
    dsimp only
    unfold propose_paydown propose_paydown_common
    cases load_paydown st id with
    | some v => exact Or.inr rfl
    | none =>
      dsimp only
      split
      · exact Or.inr rfl
      · split
        · exact Or.inr rfl
        · cases info.funds.head? with
          | none => exact Or.inr rfl
          | some c =>
            dsimp only
            split
            · exact Or.inr rfl
            · exact Or.inl rfl
  | ProposePaydownAndSell id assets tp buyer price =>
    dsimp only
    unfold propose_paydown_and_sell propose_paydown_common
    cases load_paydown st id with
    | some v => exact Or.inr rfl
    | none =>
      dsimp only
      split
      · exact Or.inr rfl
      · split
        · exact Or.inr rfl
        · cases info.funds.head? with
          | none => exact Or.inr rfl
          | some c =>
            dsimp only
            split
            · exact Or.inr rfl
            · exact Or.inl rfl
  | AcceptPaydown id =>
    dsimp only
    unfold accept_paydown
    cases load_paydown st id with
    | none => exact Or.inr rfl
    | some d =>
      dsimp only
      cases accept_paydown_party ctx info d with
      | error e => exact Or.inr rfl
      | ok party =>
        dsimp only
        split
        · exact Or.inr rfl
        · split
          · exact Or.inr rfl
          · split
            · exact Or.inr rfl
            · split
              · cases info.funds.head? with
                | none => exact Or.inr rfl
                | some c =>
                  dsimp only
                  cases d.sale_info with
                  | none => exact Or.inr rfl
                  | some si =>
                    dsimp only
                    split
                    · exact Or.inr rfl
                    · exact Or.inl rfl
              · exact Or.inl rfl
  | CancelPaydown id =>
    dsimp only
    unfold cancel_paydown
    cases load_paydown st id with
    | none => exact Or.inr rfl
    | some d =>
      dsimp only
      split
      · exact Or.inr rfl
      · split
        · exact Or.inr rfl
        · split
          · cases d.sale_info with
            | none => exact Or.inr rfl
            | some si => exact Or.inl rfl
          · exact Or.inl rfl
  | ExecutePaydown id =>
    dsimp only
    unfold execute_paydown
    cases load_paydown st id with
    | none => exact Or.inr rfl
    | some d =>
      dsimp only
      split
      · exact Or.inr rfl
      · split
        · exact Or.inr rfl
        · split
          · exact Or.inr rfl
          · exact Or.inl rfl

end ErrorUnchanged


section InvariantHelpers

theorem lookupA_eq_none_iff (l : List (String × AssetState)) (a : String) :
    lookupA l a = none ↔ a ∉ l.map Prod.fst := by
  induction l with
  | nil => simp [lookupA]
  | cons p rest ih =>
    obtain ⟨k, t⟩ := p
    simp only [lookupA, List.map_cons, List.mem_cons]
    by_cases hk : k = a
    · rw [if_pos hk]
      simp [hk]
    · rw [if_neg hk]
      simp only [ih]
      constructor
      · intro hn
        rintro (h | h)
        · exact hk h.symm
        · exact hn h
      · intro hn h
        exact hn (Or.inr h)

theorem any_assets_false_lookup (st : Ledger) (assets : List String)
    (h : any_assets_in_inventory st none assets = false) :
    ∀ a ∈ assets, lookupA st.assets a = none := by
  intro a ha
  rw [lookupA_eq_none_iff]
  intro hmem
  obtain ⟨⟨k, s⟩, hks, hk⟩ := List.mem_map.mp hmem
  have : any_assets_in_inventory st none assets = true := by
    rw [any_assets_in_inventory, vec_has_any_iff]
    refine ⟨a, ha, ?_⟩
    rw [mem_get_asset_ids_none]
    exact ⟨s, by rwa [show (k : String) = a from hk] at hks⟩
  rw [h] at this
  cases this

theorem assets_in_inventory_lookup (st : Ledger) (assets : List String)
    (hnd : (st.assets.map Prod.fst).Nodup)
    (h : assets_in_inventory st (some AssetState.Inventory) assets = true) :
    ∀ a ∈ assets, lookupA st.assets a = some AssetState.Inventory := by
  intro a ha
  rw [assets_in_inventory, vec_contains_iff] at h
  have := h a ha
  rw [mem_get_asset_ids_some] at this
  exact lookupA_of_mem_nodup hnd this

theorem Inv_propose_pledge_apply (st : Ledger) (id : String)
    (assets : List String) (ta : Nat) (amd : String) (hInv : Inv st)
    (hload : load_pledge st id = none)
    (hna : ∀ a ∈ assets, lookupA st.assets a = none) :
    Inv (propose_pledge_apply st (Pledge.mk id assets ta amd PledgeState.Proposed)) := by
  set p := Pledge.mk id assets ta amd PledgeState.Proposed with hp
  have hA : ∀ b, lookupA (propose_pledge_apply st p).assets b =
      if b ∈ assets then some AssetState.PledgeProposed else lookupA st.assets b :=
    fun b => lookupA_set_assets_state assets st.assets AssetState.PledgeProposed b
  have hP : (propose_pledge_apply st p).pledges = saveRec Pledge.id st.pledges p := rfl
  have hD : (propose_pledge_apply st p).paydowns = st.paydowns := rfl
  have hid : id ∉ st.pledges.map Pledge.id :=
    (loadRec_eq_none_iff Pledge.id st.pledges id).mp hload
  have hmemP : ∀ {q : Pledge}, q ∈ (propose_pledge_apply st p).pledges →
      q = p ∨ q ∈ st.pledges := fun hq => mem_saveRec Pledge.id (hP ▸ hq)
  have holdmem : ∀ {q : Pledge}, q ∈ st.pledges →
      q ∈ (propose_pledge_apply st p).pledges := by
    intro q hq
    rw [hP]
    refine mem_saveRec_of_mem_ne Pledge.id hq ?_
    intro hk
    apply hid
    have hmm := List.mem_map_of_mem Pledge.id hq
    rw [hk] at hmm
    exact hmm
  -- an asset of the new pledge was previously unrecorded, so no old open
  -- pledge or paydown can reference it
  have hdisjP : ∀ {q : Pledge}, q ∈ st.pledges → pledgeOpen q →
      ∀ a ∈ q.assets, a ∉ assets := by
    intro q hq hqo a haq hain
    have h1 := hInv.openPledgeAssets q hq hqo a haq
    rw [hna a hain] at h1
    cases h1
  have hdisjD : ∀ {d : Paydown}, d ∈ st.paydowns → paydownOpen d →
      ∀ a ∈ d.assets, a ∉ assets := by
    intro d hd hdo a had hain
    have h1 := hInv.openPaydownAssets d hd hdo a had
    rw [hna a hain] at h1
    cases h1
  constructor
  · exact nodup_keys_set_assets_state assets AssetState.PledgeProposed hInv.wfA
  · rw [hP]
    exact nodup_keys_saveRec Pledge.id p hInv.wfP
  · rw [hD]
    exact hInv.wfD
  · -- open pledges reserve their assets
    intro q hq hqo a haq
    rw [hA a]
    rcases hmemP hq with rfl | hq'
    · rw [if_pos haq]
    · rw [if_neg (hdisjP hq' hqo a haq)]
      exact hInv.openPledgeAssets q hq' hqo a haq
  · -- open pledges do not share assets
    intro q hq r hr hqo hro a haq har
    rcases hmemP hq with rfl | hq' <;> rcases hmemP hr with rfl | hr'
    · rfl
    · exact absurd haq (hdisjP hr' hro a har)
    · exact absurd har (hdisjP hq' hqo a haq)
    · exact hInv.openPledgeUnique q hq' r hr' hqo hro a haq har
  · -- PaydownProposed records belong to open paydowns
    intro a ha
    rw [hA a] at ha
    by_cases hain : a ∈ assets
    · rw [if_pos hain] at ha
      cases ha
    · rw [if_neg hain] at ha
      rw [hD]
      exact hInv.paydownProposedRecord a ha
  · -- open paydowns reserve their assets
    intro d hd hdo a had
    rw [hD] at hd
    rw [hA a, if_neg (hdisjD hd hdo a had)]
    exact hInv.openPaydownAssets d hd hdo a had
  · -- open paydowns do not share assets
    intro d hd e he hdo heo a had hae
    rw [hD] at hd he
    exact hInv.openPaydownUnique d hd e he hdo heo a had hae
  · -- Inventory and PaydownProposed assets belong to an Executed pledge
    intro a s ha hs
    rw [hA a] at ha
    by_cases hain : a ∈ assets
    · rw [if_pos hain] at ha
      injection ha with ha
      subst ha
      rcases hs with h | h <;> cases h
    · rw [if_neg hain] at ha
      obtain ⟨q, hq, hqe, hqa⟩ := hInv.execWitness a s ha hs
      exact ⟨q, holdmem hq, hqe, hqa⟩

theorem mem_key_unique {α : Type} (key : α → String) {l : List α}
    (hnd : (l.map key).Nodup) {x y : α} (hx : x ∈ l) (hy : y ∈ l)
    (hk : key x = key y) : x = y := by
  have h1 := loadRec_of_mem_nodup key hnd hx
  have h2 := loadRec_of_mem_nodup key hnd hy
  rw [hk] at h1
  rw [h1] at h2
  injection h2

theorem self_mem_saveRec {α : Type} (key : α → String) (l : List α) (v : α) :
    v ∈ saveRec key l v := by
  induction l with
  | nil => simp [saveRec]
  | cons x rest ih =>
    simp only [saveRec]
    by_cases hx : key x = key v
    · rw [if_pos hx]
      exact List.mem_cons_self _ _
    · rw [if_neg hx]
      exact List.mem_cons_of_mem _ ih

theorem Inv_accept_pledge_save (st : Ledger) (id : String) (p : Pledge)
    (hInv : Inv st) (hload : load_pledge st id = some p)
    (hstate : p.state = PledgeState.Proposed) :
    Inv (save_pledge st ({ p with state := PledgeState.Accepted })) := by
  set p' : Pledge := { p with state := PledgeState.Accepted } with hp'
  obtain ⟨hpm, hpid⟩ := mem_of_loadRec Pledge.id hload
  have hopen : pledgeOpen p := Or.inl hstate
  have hopen' : pledgeOpen p' := Or.inr rfl
  have hP : (save_pledge st p').pledges = saveRec Pledge.id st.pledges p' := rfl
  have hA : (save_pledge st p').assets = st.assets := rfl
  have hD : (save_pledge st p').paydowns = st.paydowns := rfl
  have hmemP : ∀ {q : Pledge}, q ∈ (save_pledge st p').pledges →
      q = p' ∨ (q.id ≠ p'.id ∧ q ∈ st.pledges) := by
    intro q hq
    exact mem_saveRec_precise Pledge.id hInv.wfP (hP ▸ hq)
  constructor
  · rw [hA]; exact hInv.wfA
  · rw [hP]; exact nodup_keys_saveRec Pledge.id p' hInv.wfP
  · rw [hD]; exact hInv.wfD
  · intro q hq hqo a haq
    rw [hA]
    rcases hmemP hq with rfl | ⟨hk, hq'⟩
    · exact hInv.openPledgeAssets p hpm hopen a haq
    · exact hInv.openPledgeAssets q hq' hqo a haq
  · intro q hq r hr hqo hro a haq har
    rcases hmemP hq with rfl | ⟨hkq, hq'⟩ <;> rcases hmemP hr with rfl | ⟨hkr, hr'⟩
    · rfl
    · exact hInv.openPledgeUnique p hpm r hr' hopen hro a haq har
    · exact hInv.openPledgeUnique q hq' p hpm hqo hopen a haq har
    · exact hInv.openPledgeUnique q hq' r hr' hqo hro a haq har
  · intro a ha
    rw [hA] at ha
    rw [hD]
    exact hInv.paydownProposedRecord a ha
  · intro d hd hdo a had
    rw [hD] at hd
    rw [hA]
    exact hInv.openPaydownAssets d hd hdo a had
  · intro d hd e he hdo heo a had hae
    rw [hD] at hd he
    exact hInv.openPaydownUnique d hd e he hdo heo a had hae
  · intro a s ha hs
    rw [hA] at ha
    obtain ⟨q, hq, hqe, hqa⟩ := hInv.execWitness a s ha hs
    have hkq : q.id ≠ p'.id := by
      intro hk
      have := mem_key_unique Pledge.id hInv.wfP hq hpm hk
      rw [this, hstate] at hqe
      cases hqe
    exact ⟨q, hP ▸ mem_saveRec_of_mem_ne Pledge.id hq hkq, hqe, hqa⟩

theorem Inv_cancel_pledge_apply (st : Ledger) (id : String) (p : Pledge)
    (hInv : Inv st) (hload : load_pledge st id = some p)
    (hopen : pledgeOpen p) :
    Inv (cancel_pledge_apply st p) := by
  set p' : Pledge := { p with state := PledgeState.Cancelled } with hp'
  obtain ⟨hpm, hpid⟩ := mem_of_loadRec Pledge.id hload
  have hA : ∀ b, lookupA (cancel_pledge_apply st p).assets b =
      if b ∈ p.assets then none else lookupA st.assets b :=
    fun b => lookupA_remove_assets st.assets p.assets b
  have hP : (cancel_pledge_apply st p).pledges = saveRec Pledge.id st.pledges p' := rfl
  have hD : (cancel_pledge_apply st p).paydowns = st.paydowns := rfl
  have hmemP : ∀ {q : Pledge}, q ∈ (cancel_pledge_apply st p).pledges →
      q = p' ∨ (q.id ≠ p'.id ∧ q ∈ st.pledges) := by
    intro q hq
    exact mem_saveRec_precise Pledge.id hInv.wfP (hP ▸ hq)
  have hnotopen' : ¬ pledgeOpen p' := by
    rintro (h | h) <;> cases h
  constructor
  · exact nodup_keys_remove_assets p.assets hInv.wfA
  · rw [hP]; exact nodup_keys_saveRec Pledge.id p' hInv.wfP
  · rw [hD]; exact hInv.wfD
  · intro q hq hqo a haq
    rcases hmemP hq with rfl | ⟨hk, hq'⟩
    · exact absurd hqo hnotopen'
    · rw [hA a, if_neg (fun hain => hk
        (hInv.openPledgeUnique q hq' p hpm hqo hopen a haq hain))]
      exact hInv.openPledgeAssets q hq' hqo a haq
  · intro q hq r hr hqo hro a haq har
    rcases hmemP hq with rfl | ⟨hkq, hq'⟩
    · exact absurd hqo hnotopen'
    · rcases hmemP hr with rfl | ⟨hkr, hr'⟩
      · exact absurd hro hnotopen'
      · exact hInv.openPledgeUnique q hq' r hr' hqo hro a haq har
  · intro a ha
    rw [hA a] at ha
    by_cases hain : a ∈ p.assets
    · rw [if_pos hain] at ha
      cases ha
    · rw [if_neg hain] at ha
      rw [hD]
      exact hInv.paydownProposedRecord a ha
  · intro d hd hdo a had
    rw [hD] at hd
    have hst := hInv.openPaydownAssets d hd hdo a had
    rw [hA a, if_neg (fun hain => by
      have := hInv.openPledgeAssets p hpm hopen a hain
      rw [hst] at this
      cases this)]
    exact hst
  · intro d hd e he hdo heo a had hae
    rw [hD] at hd he
    exact hInv.openPaydownUnique d hd e he hdo heo a had hae
  · intro a s ha hs
    rw [hA a] at ha
    by_cases hain : a ∈ p.assets
    · rw [if_pos hain] at ha
      cases ha
    · rw [if_neg hain] at ha
      obtain ⟨q, hq, hqe, hqa⟩ := hInv.execWitness a s ha hs
      have hkq : q.id ≠ p'.id := by
        intro hk
        have := mem_key_unique Pledge.id hInv.wfP hq hpm hk
        subst this
        rcases hopen with h | h <;> rw [hqe] at h <;> cases h
      exact ⟨q, hP ▸ mem_saveRec_of_mem_ne Pledge.id hq hkq, hqe, hqa⟩

theorem Inv_execute_pledge_apply (st : Ledger) (id : String) (p : Pledge)
    (hInv : Inv st) (hload : load_pledge st id = some p)
    (hstate : p.state = PledgeState.Accepted) :
    Inv (execute_pledge_apply st p) := by
  set p' : Pledge := { p with state := PledgeState.Executed } with hp'
  obtain ⟨hpm, hpid⟩ := mem_of_loadRec Pledge.id hload
  have hopen : pledgeOpen p := Or.inr hstate
  have hA : ∀ b, lookupA (execute_pledge_apply st p).assets b =
      if b ∈ p.assets then some AssetState.Inventory else lookupA st.assets b :=
    fun b => lookupA_set_assets_state p.assets st.assets AssetState.Inventory b
  have hP : (execute_pledge_apply st p).pledges = saveRec Pledge.id st.pledges p' := rfl
  have hD : (execute_pledge_apply st p).paydowns = st.paydowns := rfl
  have hmemP : ∀ {q : Pledge}, q ∈ (execute_pledge_apply st p).pledges →
      q = p' ∨ (q.id ≠ p'.id ∧ q ∈ st.pledges) := by
    intro q hq
    exact mem_saveRec_precise Pledge.id hInv.wfP (hP ▸ hq)
  have hnotopen' : ¬ pledgeOpen p' := by
    rintro (h | h) <;> cases h
  constructor
  · exact nodup_keys_set_assets_state p.assets AssetState.Inventory hInv.wfA
  · rw [hP]; exact nodup_keys_saveRec Pledge.id p' hInv.wfP
  · rw [hD]; exact hInv.wfD
  · intro q hq hqo a haq
    rcases hmemP hq with rfl | ⟨hk, hq'⟩
    · exact absurd hqo hnotopen'
    · rw [hA a, if_neg (fun hain => hk
        (hInv.openPledgeUnique q hq' p hpm hqo hopen a haq hain))]
      exact hInv.openPledgeAssets q hq' hqo a haq
  · intro q hq r hr hqo hro a haq har
    rcases hmemP hq with rfl | ⟨hkq, hq'⟩
    · exact absurd hqo hnotopen'
    · rcases hmemP hr with rfl | ⟨hkr, hr'⟩
      · exact absurd hro hnotopen'
      · exact hInv.openPledgeUnique q hq' r hr' hqo hro a haq har
  · intro a ha
    rw [hA a] at ha
    by_cases hain : a ∈ p.assets
    · rw [if_pos hain] at ha
      cases ha
    · rw [if_neg hain] at ha
      rw [hD]
      exact hInv.paydownProposedRecord a ha
  · intro d hd hdo a had
    rw [hD] at hd
    have hst := hInv.openPaydownAssets d hd hdo a had
    rw [hA a, if_neg (fun hain => by
      have := hInv.openPledgeAssets p hpm hopen a hain
      rw [hst] at this
      cases this)]
    exact hst
  · intro d hd e he hdo heo a had hae
    rw [hD] at hd he
    exact hInv.openPaydownUnique d hd e he hdo heo a had hae
  · intro a s ha hs
    rw [hA a] at ha
    by_cases hain : a ∈ p.assets
    · rw [if_pos hain] at ha
      refine ⟨p', hP ▸ self_mem_saveRec Pledge.id st.pledges p', rfl, hain⟩
    · rw [if_neg hain] at ha
      obtain ⟨q, hq, hqe, hqa⟩ := hInv.execWitness a s ha hs
      have hkq : q.id ≠ p'.id := by
        intro hk
        have := mem_key_unique Pledge.id hInv.wfP hq hpm hk
        subst this
        rw [hstate] at hqe
        cases hqe
      exact ⟨q, hP ▸ mem_saveRec_of_mem_ne Pledge.id hq hkq, hqe, hqa⟩

theorem accept_paydown_record_id (d : Paydown) (party : ContractParty) :
    (accept_paydown_record d party).id = d.id := by
  unfold accept_paydown_record
  cases d.kind <;> dsimp only <;> split <;> rfl

theorem accept_paydown_record_assets (d : Paydown) (party : ContractParty) :
    (accept_paydown_record d party).assets = d.assets := by
  unfold accept_paydown_record
  cases d.kind <;> dsimp only <;> split <;> rfl

theorem accept_paydown_record_kind (d : Paydown) (party : ContractParty) :
    (accept_paydown_record d party).kind = d.kind := by
  unfold accept_paydown_record
  cases d.kind <;> dsimp only <;> split <;> rfl

theorem accept_paydown_record_sale_info (d : Paydown) (party : ContractParty) :
    (accept_paydown_record d party).sale_info = d.sale_info := by
  unfold accept_paydown_record
  cases d.kind <;> dsimp only <;> split <;> rfl

theorem accept_paydown_record_parties (d : Paydown) (party : ContractParty) :
    (accept_paydown_record d party).parties_accepted =
      d.parties_accepted ++ [party] := by
  unfold accept_paydown_record
  cases d.kind <;> dsimp only <;> split <;> rfl

theorem accept_paydown_record_open (d : Paydown) (party : ContractParty)
    (h : d.state = PaydownState.Proposed) :
    paydownOpen (accept_paydown_record d party) := by
  unfold accept_paydown_record
  cases d.kind <;> dsimp only <;> split
  · exact Or.inr rfl
  · exact Or.inl h
  · exact Or.inr rfl
  · exact Or.inl h

theorem accept_paydown_record_state_only (d : Paydown) (party : ContractParty)
    (hk : d.kind = PaydownKind.PaydownOnly) :
    (accept_paydown_record d party).state =
      if vec_contains (d.parties_accepted ++ [party]) [ContractParty.Warehouse]
      then PaydownState.Accepted else d.state := by
  unfold accept_paydown_record
  rw [hk]
  dsimp only
  split
  next h => rfl
  next h => rfl

theorem accept_paydown_record_state_andsell (d : Paydown) (party : ContractParty)
    (hk : d.kind = PaydownKind.PaydownAndSell) :
    (accept_paydown_record d party).state =
      if vec_contains (d.parties_accepted ++ [party])
          [ContractParty.Warehouse, ContractParty.Buyer]
      then PaydownState.Accepted else d.state := by
  unfold accept_paydown_record
  rw [hk]
  dsimp only
  split
  next h => rfl
  next h => rfl

theorem Inv_propose_paydown_apply (st : Ledger) (d : Paydown) (hInv : Inv st)
    (hload : load_paydown st d.id = none)
    (hstate : d.state = PaydownState.Proposed)
    (hassets : ∀ a ∈ d.assets, lookupA st.assets a = some AssetState.Inventory) :
    Inv (propose_paydown_apply st d) := by
  have hA : ∀ b, lookupA (propose_paydown_apply st d).assets b =
      if b ∈ d.assets then some AssetState.PaydownProposed else lookupA st.assets b :=
    fun b => lookupA_set_assets_state d.assets st.assets AssetState.PaydownProposed b
  have hP : (propose_paydown_apply st d).pledges = st.pledges := rfl
  have hD : (propose_paydown_apply st d).paydowns = saveRec Paydown.id st.paydowns d := rfl
  have hopen : paydownOpen d := Or.inl hstate
  have hid : d.id ∉ st.paydowns.map Paydown.id :=
    (loadRec_eq_none_iff Paydown.id st.paydowns d.id).mp hload
  have holdmem : ∀ {e : Paydown}, e ∈ st.paydowns →
      e ∈ (propose_paydown_apply st d).paydowns := by
    intro e he
    rw [hD]
    refine mem_saveRec_of_mem_ne Paydown.id he ?_
    intro hk
    apply hid
    have hmm := List.mem_map_of_mem Paydown.id he
    rw [hk] at hmm
    exact hmm
  have hmemD : ∀ {e : Paydown}, e ∈ (propose_paydown_apply st d).paydowns →
      e = d ∨ e ∈ st.paydowns := fun he => mem_saveRec Paydown.id (hD ▸ he)
  -- no open pledge or old open paydown references an asset of the new
  -- paydown, whose records are in state Inventory
  have hdisjP : ∀ {q : Pledge}, q ∈ st.pledges → pledgeOpen q →
      ∀ a ∈ q.assets, a ∉ d.assets := by
    intro q hq hqo a haq hain
    have h1 := hInv.openPledgeAssets q hq hqo a haq
    rw [hassets a hain] at h1
    cases h1
  have hdisjD : ∀ {e : Paydown}, e ∈ st.paydowns → paydownOpen e →
      ∀ a ∈ e.assets, a ∉ d.assets := by
    intro e he heo a hae hain
    have h1 := hInv.openPaydownAssets e he heo a hae
    rw [hassets a hain] at h1
    cases h1
  constructor
  · exact nodup_keys_set_assets_state d.assets AssetState.PaydownProposed hInv.wfA
  · rw [hP]; exact hInv.wfP
  · rw [hD]; exact nodup_keys_saveRec Paydown.id d hInv.wfD
  · intro q hq hqo a haq
    rw [hP] at hq
    rw [hA a, if_neg (hdisjP hq hqo a haq)]
    exact hInv.openPledgeAssets q hq hqo a haq
  · intro q hq r hr hqo hro a haq har
    rw [hP] at hq hr
    exact hInv.openPledgeUnique q hq r hr hqo hro a haq har
  · intro a ha
    rw [hA a] at ha
    by_cases hain : a ∈ d.assets
    · exact ⟨d, hD ▸ self_mem_saveRec Paydown.id st.paydowns d, hopen, hain⟩
    · rw [if_neg hain] at ha
      obtain ⟨e, he, heo, hea⟩ := hInv.paydownProposedRecord a ha
      exact ⟨e, holdmem he, heo, hea⟩
  · intro e he heo a hae
    rcases hmemD he with rfl | he'
    · rw [hA a, if_pos hae]
    · rw [hA a, if_neg (hdisjD he' heo a hae)]
      exact hInv.openPaydownAssets e he' heo a hae
  · intro e he f hf heo hfo a hae haf
    rcases hmemD he with rfl | he' <;> rcases hmemD hf with rfl | hf'
    · rfl
    · exact absurd hae (hdisjD hf' hfo a haf)
    · exact absurd haf (hdisjD he' heo a hae)
    · exact hInv.openPaydownUnique e he' f hf' heo hfo a hae haf
  · intro a s ha hs
    rw [hA a] at ha
    rw [hP]
    by_cases hain : a ∈ d.assets
    · exact hInv.execWitness a AssetState.Inventory (hassets a hain) (Or.inl rfl)
    · rw [if_neg hain] at ha
      exact hInv.execWitness a s ha hs

theorem Inv_accept_paydown_save (st : Ledger) (id : String) (d : Paydown)
    (party : ContractParty) (hInv : Inv st)
    (hload : load_paydown st id = some d)
    (hstate : d.state = PaydownState.Proposed) :
    Inv (save_paydown st (accept_paydown_record d party)) := by
  set d' : Paydown := accept_paydown_record d party with hd'
  obtain ⟨hdm, hdid⟩ := mem_of_loadRec Paydown.id hload
  have hopen : paydownOpen d := Or.inl hstate
  have hopen' : paydownOpen d' := accept_paydown_record_open d party hstate
  have hA : (save_paydown st d').assets = st.assets := rfl
  have hP : (save_paydown st d').pledges = st.pledges := rfl
  have hD : (save_paydown st d').paydowns = saveRec Paydown.id st.paydowns d' := rfl
  have hassets' : d'.assets = d.assets := accept_paydown_record_assets d party
  have hmemD : ∀ {e : Paydown}, e ∈ (save_paydown st d').paydowns →
      e = d' ∨ (e.id ≠ d'.id ∧ e ∈ st.paydowns) := by
    intro e he
    exact mem_saveRec_precise Paydown.id hInv.wfD (hD ▸ he)
  constructor
  · rw [hA]; exact hInv.wfA
  · rw [hP]; exact hInv.wfP
  · rw [hD]; exact nodup_keys_saveRec Paydown.id d' hInv.wfD
  · intro q hq hqo a haq
    rw [hP] at hq
    rw [hA]
    exact hInv.openPledgeAssets q hq hqo a haq
  · intro q hq r hr hqo hro a haq har
    rw [hP] at hq hr
    exact hInv.openPledgeUnique q hq r hr hqo hro a haq har
  · intro a ha
    rw [hA] at ha
    obtain ⟨e, he, heo, hea⟩ := hInv.paydownProposedRecord a ha
    by_cases hk : e.id = d'.id
    · refine ⟨d', hD ▸ self_mem_saveRec Paydown.id st.paydowns d', hopen', ?_⟩
      have hed : e = d := by
        apply mem_key_unique Paydown.id hInv.wfD he hdm
        rw [hk, hd', accept_paydown_record_id]
      rw [hassets']
      rw [hed] at hea
      exact hea
    · exact ⟨e, hD ▸ mem_saveRec_of_mem_ne Paydown.id he hk, heo, hea⟩
  · intro e he heo a hae
    rw [hA]
    rcases hmemD he with rfl | ⟨hk, he'⟩
    · rw [hassets'] at hae
      exact hInv.openPaydownAssets d hdm hopen a hae
    · exact hInv.openPaydownAssets e he' heo a hae
  · intro e he f hf heo hfo a hae haf
    have hid' : d'.id = d.id := accept_paydown_record_id d party
    rcases hmemD he with rfl | ⟨hke, he'⟩ <;> rcases hmemD hf with rfl | ⟨hkf, hf'⟩
    · rfl
    · rw [hassets'] at hae
      rw [hid']
      exact hInv.openPaydownUnique d hdm f hf' hopen hfo a hae haf
    · rw [hassets'] at haf
      rw [hid']
      exact (hInv.openPaydownUnique d hdm e he' hopen heo a haf hae).symm
    · exact hInv.openPaydownUnique e he' f hf' heo hfo a hae haf
  · intro a s ha hs
    rw [hA] at ha
    rw [hP]
    exact hInv.execWitness a s ha hs

theorem Inv_cancel_paydown_apply (st : Ledger) (id : String) (d : Paydown)
    (hInv : Inv st) (hload : load_paydown st id = some d)
    (hopen : paydownOpen d) :
    Inv (cancel_paydown_apply st d) := by
  set d' : Paydown := { d with state := PaydownState.Cancelled } with hd'
  obtain ⟨hdm, hdid⟩ := mem_of_loadRec Paydown.id hload
  have hA : ∀ b, lookupA (cancel_paydown_apply st d).assets b =
      if b ∈ d.assets then some AssetState.Inventory else lookupA st.assets b :=
    fun b => lookupA_set_assets_state d.assets st.assets AssetState.Inventory b
  have hP : (cancel_paydown_apply st d).pledges = st.pledges := rfl
  have hD : (cancel_paydown_apply st d).paydowns = saveRec Paydown.id st.paydowns d' := rfl
  have hmemD : ∀ {e : Paydown}, e ∈ (cancel_paydown_apply st d).paydowns →
      e = d' ∨ (e.id ≠ d'.id ∧ e ∈ st.paydowns) := by
    intro e he
    exact mem_saveRec_precise Paydown.id hInv.wfD (hD ▸ he)
  have hnotopen' : ¬ paydownOpen d' := by
    rintro (h | h) <;> cases h
  constructor
  · exact nodup_keys_set_assets_state d.assets AssetState.Inventory hInv.wfA
  · rw [hP]; exact hInv.wfP
  · rw [hD]; exact nodup_keys_saveRec Paydown.id d' hInv.wfD
  · intro q hq hqo a haq
    rw [hP] at hq
    have hst := hInv.openPledgeAssets q hq hqo a haq
    rw [hA a, if_neg (fun hain => by
      have := hInv.openPaydownAssets d hdm hopen a hain
      rw [hst] at this
      cases this)]
    exact hst
  · intro q hq r hr hqo hro a haq har
    rw [hP] at hq hr
    exact hInv.openPledgeUnique q hq r hr hqo hro a haq har
  · intro a ha
    rw [hA a] at ha
    by_cases hain : a ∈ d.assets
    · rw [if_pos hain] at ha
      cases ha
    · rw [if_neg hain] at ha
      obtain ⟨e, he, heo, hea⟩ := hInv.paydownProposedRecord a ha
      have hk : e.id ≠ d'.id := by
        intro hk
        have hed : e = d := mem_key_unique Paydown.id hInv.wfD he hdm hk
        rw [hed] at hea
        exact hain hea
      exact ⟨e, hD ▸ mem_saveRec_of_mem_ne Paydown.id he hk, heo, hea⟩
  · intro e he heo a hae
    rcases hmemD he with rfl | ⟨hk, he'⟩
    · exact absurd heo hnotopen'
    · rw [hA a, if_neg (fun hain => hk
        (hInv.openPaydownUnique e he' d hdm heo hopen a hae hain))]
      exact hInv.openPaydownAssets e he' heo a hae
  · intro e he f hf heo hfo a hae haf
    rcases hmemD he with rfl | ⟨hke, he'⟩
    · exact absurd heo hnotopen'
    · rcases hmemD hf with rfl | ⟨hkf, hf'⟩
      · exact absurd hfo hnotopen'
      · exact hInv.openPaydownUnique e he' f hf' heo hfo a hae haf
  · intro a s ha hs
    rw [hA a] at ha
    rw [hP]
    by_cases hain : a ∈ d.assets
    · exact hInv.execWitness a AssetState.PaydownProposed
        (hInv.openPaydownAssets d hdm hopen a hain) (Or.inr rfl)
    · rw [if_neg hain] at ha
      exact hInv.execWitness a s ha hs

theorem mem_execute_paydown_closed (st1 : Ledger) (affected : List String)
    (pid : String) :
    pid ∈ execute_paydown_closed st1 affected ↔
      pid ∈ affected ∧ ∃ p, load_pledge st1 pid = some p ∧
        ¬ (vec_has_any (list_inventory st1) p.assets = true) := by
  unfold execute_paydown_closed
  rw [List.mem_filter]
  constructor
  · rintro ⟨hmem, hcond⟩
    refine ⟨hmem, ?_⟩
    cases hl : load_pledge st1 pid with
    | none =>
      rw [hl] at hcond
      simp at hcond
    | some p =>
      rw [hl] at hcond
      exact ⟨p, rfl, by simpa using hcond⟩
  · rintro ⟨hmem, p, hl, hcond⟩
    refine ⟨hmem, ?_⟩
    rw [hl]
    simpa using hcond

theorem Inv_execute_paydown_final (q : Querier) (orig : String) (st : Ledger)
    (id : String) (d : Paydown) (ms : List Msg) (hInv : Inv st)
    (hload : load_paydown st id = some d)
    (hstate : d.state = PaydownState.Accepted) :
    Inv (execute_paydown_final q orig st d ms) := by
  set d' : Paydown := { d with state := PaydownState.Executed } with hd'
  obtain ⟨hdm, hdid⟩ := mem_of_loadRec Paydown.id hload
  have hopen : paydownOpen d := Or.inr hstate
  set st1 : Ledger := execute_paydown_base st d with hst1
  set affected : List String := find_pledge_ids_with_assets st1.pledges d.assets
    (some PledgeState.Executed) with haff
  set closed : List String := execute_paydown_closed st1 affected with hclosed
  have hfinal : execute_paydown_final q orig st d ms =
      Ledger.mk st1.assets (close_pledges_loop q orig closed st1.pledges ms).1
        st1.paydowns := rfl
  rw [hfinal]
  have hst1P : st1.pledges = st.pledges := rfl
  have hst1D : st1.paydowns = saveRec Paydown.id st.paydowns d' := rfl
  have hA : ∀ b, lookupA st1.assets b =
      if b ∈ d.assets then none else lookupA st.assets b :=
    fun b => lookupA_remove_assets st.assets d.assets b
  have hwfA1 : (st1.assets.map Prod.fst).Nodup :=
    nodup_keys_remove_assets d.assets hInv.wfA
  have hmemP : ∀ {x : Pledge},
      x ∈ (close_pledges_loop q orig closed st1.pledges ms).1 →
      x ∈ st.pledges ∨ ∃ y ∈ st.pledges, x = closePledge y := by
    intro x hx
    rw [hst1P] at hx
    exact mem_close_loop_nodup q orig closed st.pledges ms hInv.wfP hx
  have hmemD : ∀ {e : Paydown}, e ∈ st1.paydowns →
      e = d' ∨ (e.id ≠ d'.id ∧ e ∈ st.paydowns) := by
    intro e he
    exact mem_saveRec_precise Paydown.id hInv.wfD (hst1D ▸ he)
  have hnotopen' : ¬ paydownOpen d' := by
    rintro (h | h) <;> cases h
  -- a pledge with an asset still in the post-removal inventory is not closed
  have hnotclosed : ∀ {p0 : Pledge}, p0 ∈ st.pledges → ∀ a ∈ p0.assets,
      a ∉ d.assets → (∃ s, lookupA st.assets a = some s ∧
        (s = AssetState.Inventory ∨ s = AssetState.PaydownProposed)) →
      p0.id ∉ closed := by
    intro p0 hp0 a ha hand ⟨s, hlk, hsor⟩ hin
    rw [hclosed, mem_execute_paydown_closed] at hin
    obtain ⟨hmem, p', hl', hcond⟩ := hin
    have hl0 : load_pledge st1 p0.id = some p0 := by
      show loadRec Pledge.id st1.pledges p0.id = some p0
      rw [hst1P]
      exact loadRec_of_mem_nodup Pledge.id hInv.wfP hp0
    rw [hl0] at hl'
    injection hl' with hl'
    subst hl'
    apply hcond
    rw [vec_has_any_iff]
    refine ⟨a, ha, ?_⟩
    rw [mem_list_inventory_lookup st1 a hwfA1, hA a, if_neg hand, hlk]
    rcases hsor with h | h <;> rw [h]
    · exact Or.inl rfl
    · exact Or.inr rfl
  constructor
  · exact hwfA1
  · show (((close_pledges_loop q orig closed st1.pledges ms).1).map Pledge.id).Nodup
    rw [keys_close_pledges_loop, hst1P]
    exact hInv.wfP
  · rw [hst1D]
    exact nodup_keys_saveRec Paydown.id d' hInv.wfD
  · -- open pledges reserve their assets
    intro x hx hxo a hax
    rcases hmemP hx with hx' | ⟨y, hy, rfl⟩
    · have hst := hInv.openPledgeAssets x hx' hxo a hax
      rw [hA a, if_neg (fun hain => by
        have := hInv.openPaydownAssets d hdm hopen a hain
        rw [hst] at this
        cases this)]
      exact hst
    · rcases hxo with h | h <;> cases h
  · intro x hx y hy hxo hyo a hax hay
    rcases hmemP hx with hx' | ⟨x0, hx0, rfl⟩
    · rcases hmemP hy with hy' | ⟨y0, hy0, rfl⟩
      · exact hInv.openPledgeUnique x hx' y hy' hxo hyo a hax hay
      · rcases hyo with h | h <;> cases h
    · rcases hxo with h | h <;> cases h
  · -- PaydownProposed records belong to open paydowns
    intro a ha
    rw [hA a] at ha
    by_cases hain : a ∈ d.assets
    · rw [if_pos hain] at ha
      cases ha
    · rw [if_neg hain] at ha
      obtain ⟨e, he, heo, hea⟩ := hInv.paydownProposedRecord a ha
      have hk : e.id ≠ d'.id := by
        intro hk
        have hed : e = d := mem_key_unique Paydown.id hInv.wfD he hdm hk
        rw [hed] at hea
        exact hain hea
      exact ⟨e, hst1D ▸ mem_saveRec_of_mem_ne Paydown.id he hk, heo, hea⟩
  · -- open paydowns reserve their assets
    intro e he heo a hae
    rcases hmemD he with rfl | ⟨hk, he'⟩
    · exact absurd heo hnotopen'
    · rw [hA a, if_neg (fun hain => hk
        (hInv.openPaydownUnique e he' d hdm heo hopen a hae hain))]
      exact hInv.openPaydownAssets e he' heo a hae
  · intro e he f hf heo hfo a hae haf
    rcases hmemD he with rfl | ⟨hke, he'⟩
    · exact absurd heo hnotopen'
    · rcases hmemD hf with rfl | ⟨hkf, hf'⟩
      · exact absurd hfo hnotopen'
      · exact hInv.openPaydownUnique e he' f hf' heo hfo a hae haf
  · -- Inventory and PaydownProposed assets belong to an Executed pledge
    intro a s ha hs
    rw [hA a] at ha
    by_cases hain : a ∈ d.assets
    · rw [if_pos hain] at ha
      cases ha
    · rw [if_neg hain] at ha
      obtain ⟨p0, hp0, hp0e, hp0a⟩ := hInv.execWitness a s ha hs
      have hnc : p0.id ∉ closed :=
        hnotclosed hp0 a hp0a hain ⟨s, ha, hs⟩
      have hl0 : loadRec Pledge.id st.pledges p0.id = some p0 :=
        loadRec_of_mem_nodup Pledge.id hInv.wfP hp0
      have hlp : loadRec Pledge.id
          (close_pledges_loop q orig closed st1.pledges ms).1 p0.id = some p0 := by
        rw [hst1P]
        rw [loadRec_close_loop_some q orig closed st.pledges ms p0.id p0 hl0]
        rw [if_neg hnc]
      exact ⟨p0, (mem_of_loadRec Pledge.id hlp).1, hp0e, hp0a⟩

theorem Inv_execute (ctx : Ctx) (info : MessageInfo) (msg : ExecuteMsg)
    (st : Ledger) (hInv : Inv st) : Inv (execute ctx info msg st).2 := by
  cases msg with
  | ProposePledge id assets ta amd =>
    show Inv (propose_pledge ctx info id assets ta amd st).2
    rcases propose_pledge_shape ctx info id assets ta amd st with h | ⟨hl, hna, h⟩
    · rw [h]; exact hInv
    · rw [h]
      exact Inv_propose_pledge_apply st id assets ta amd hInv hl
        (any_assets_false_lookup st assets hna)
  | AcceptPledge id =>
    show Inv (accept_pledge ctx info id st).2
    rcases accept_pledge_shape ctx info id st with h | ⟨p, hl, hs, h⟩
    · rw [h]; exact hInv
    · rw [h]; exact Inv_accept_pledge_save st id p hInv hl hs
  | CancelPledge id =>
    show Inv (cancel_pledge ctx info id st).2
    rcases cancel_pledge_shape ctx info id st with h | ⟨p, hl, hs, h⟩
    · rw [h]; exact hInv
    · rw [h]; exact Inv_cancel_pledge_apply st id p hInv hl hs
  | ExecutePledge id =>
    show Inv (execute_pledge ctx info id st).2
    rcases execute_pledge_shape ctx info id st with h | ⟨p, hl, hs, h⟩
    · rw [h]; exact hInv
    · rw [h]; exact Inv_execute_pledge_apply st id p hInv hl hs
  | ProposePaydown id assets tp =>
    show Inv (propose_paydown_common ctx info id
      (Paydown.mk id assets tp PaydownKind.PaydownOnly PaydownState.Proposed
        [] none) st).2
    rcases propose_paydown_common_shape ctx info id
      (Paydown.mk id assets tp PaydownKind.PaydownOnly PaydownState.Proposed [] none)
      st with h | ⟨hl, hai, h⟩
    · rw [h]; exact hInv
    · rw [h]
      exact Inv_propose_paydown_apply st _ hInv hl rfl
        (assets_in_inventory_lookup st assets hInv.wfA hai)
  | ProposePaydownAndSell id assets tp buyer price =>
    show Inv (propose_paydown_common ctx info id
      (Paydown.mk id assets tp PaydownKind.PaydownAndSell PaydownState.Proposed
        [] (some (PaydownSaleInfo.mk buyer price))) st).2
    rcases propose_paydown_common_shape ctx info id
      (Paydown.mk id assets tp PaydownKind.PaydownAndSell PaydownState.Proposed
        [] (some (PaydownSaleInfo.mk buyer price))) st with h | ⟨hl, hai, h⟩
    · rw [h]; exact hInv
    · rw [h]
      exact Inv_propose_paydown_apply st _ hInv hl rfl
        (assets_in_inventory_lookup st assets hInv.wfA hai)
  | AcceptPaydown id =>
    show Inv (accept_paydown ctx info id st).2
    rcases accept_paydown_shape ctx info id st with h | ⟨d, party, hl, hp, hnp, hs, h⟩
    · rw [h]; exact hInv
    · rw [h]; exact Inv_accept_paydown_save st id d party hInv hl hs
  | CancelPaydown id =>
    show Inv (cancel_paydown ctx info id st).2
    rcases cancel_paydown_shape ctx info id st with h | ⟨d, hl, hs, h⟩
    · rw [h]; exact hInv
    · rw [h]; exact Inv_cancel_paydown_apply st id d hInv hl hs
  | ExecutePaydown id =>
    show Inv (execute_paydown ctx info id st).2
    rcases execute_paydown_shape ctx info id st with h | ⟨d, ms, hl, hs, h⟩
    · rw [h]; exact hInv
    · rw [h]
      exact Inv_execute_paydown_final ctx.querier
        ctx.contract_info.facility.originator st id d ms hInv hl hs

theorem Inv_init : Inv initLedger := by
  refine ⟨List.nodup_nil, List.nodup_nil, List.nodup_nil, ?_, ?_, ?_, ?_, ?_, ?_⟩
  · intro p hp
    cases hp
  · intro p hp
    cases hp
  · intro a ha
    cases ha
  · intro d hd
    cases hd
  · intro d hd
    cases hd
  · intro a s ha
    cases ha

theorem Inv_reachable {st : Ledger} (h : Reachable st) : Inv st := by
  induction h with
  | init => exact Inv_init
  | step ctx info msg st hst ih => exact Inv_execute ctx info msg st ih

theorem PartiesInv_execute (ctx : Ctx) (info : MessageInfo) (msg : ExecuteMsg)
    (st : Ledger) (h : PartiesInv st) : PartiesInv (execute ctx info msg st).2 := by
  have hsave : ∀ (d0 : Paydown), d0.parties_accepted.Nodup →
      PartiesInv (Ledger.mk st.assets st.pledges (saveRec Paydown.id st.paydowns d0)) := by
    intro d0 hd0 e he
    rcases mem_saveRec Paydown.id he with rfl | he'
    · exact hd0
    · exact h e he'
  cases msg with
  | ProposePledge id assets ta amd =>
    show PartiesInv (propose_pledge ctx info id assets ta amd st).2
    rcases propose_pledge_shape ctx info id assets ta amd st with hh | ⟨_, _, hh⟩ <;>
      rw [hh]
    · exact h
    · exact h
  | AcceptPledge id =>
    show PartiesInv (accept_pledge ctx info id st).2
    rcases accept_pledge_shape ctx info id st with hh | ⟨p, _, _, hh⟩ <;> rw [hh]
    · exact h
    · exact h
  | CancelPledge id =>
    show PartiesInv (cancel_pledge ctx info id st).2
    rcases cancel_pledge_shape ctx info id st with hh | ⟨p, _, _, hh⟩ <;> rw [hh]
    · exact h
    · exact h
  | ExecutePledge id =>
    show PartiesInv (execute_pledge ctx info id st).2
    rcases execute_pledge_shape ctx info id st with hh | ⟨p, _, _, hh⟩ <;> rw [hh]
    · exact h
    · exact h
  | ProposePaydown id assets tp =>
    show PartiesInv (propose_paydown_common ctx info id
      (Paydown.mk id assets tp PaydownKind.PaydownOnly PaydownState.Proposed
        [] none) st).2
    rcases propose_paydown_common_shape ctx info id
      (Paydown.mk id assets tp PaydownKind.PaydownOnly PaydownState.Proposed [] none)
      st with hh | ⟨_, _, hh⟩ <;> rw [hh]
    · exact h
    · exact hsave _ List.nodup_nil
  | ProposePaydownAndSell id assets tp buyer price =>
    show PartiesInv (propose_paydown_common ctx info id
      (Paydown.mk id assets tp PaydownKind.PaydownAndSell PaydownState.Proposed
        [] (some (PaydownSaleInfo.mk buyer price))) st).2
    rcases propose_paydown_common_shape ctx info id
      (Paydown.mk id assets tp PaydownKind.PaydownAndSell PaydownState.Proposed
        [] (some (PaydownSaleInfo.mk buyer price))) st with hh | ⟨_, _, hh⟩ <;>
      rw [hh]
    · exact h
    · exact hsave _ List.nodup_nil
  | AcceptPaydown id =>
    show PartiesInv (accept_paydown ctx info id st).2
    rcases accept_paydown_shape ctx info id st with hh | ⟨d, party, hl, hp, hnp, hs, hh⟩ <;>
      rw [hh]
    · exact h
    · apply hsave
      rw [accept_paydown_record_parties]
      rw [List.nodup_append]
      refine ⟨h d (mem_of_loadRec Paydown.id hl).1, List.nodup_singleton _, ?_⟩
      intro x hx hxp
      rw [List.mem_singleton] at hxp
      subst hxp
      exact hnp hx
  | CancelPaydown id =>
    show PartiesInv (cancel_paydown ctx info id st).2
    rcases cancel_paydown_shape ctx info id st with hh | ⟨d, hl, hs, hh⟩ <;> rw [hh]
    · exact h
    · intro e he
      rcases mem_saveRec Paydown.id he with rfl | he'
      · exact h d (mem_of_loadRec Paydown.id hl).1
      · exact h e he'
  | ExecutePaydown id =>
    show PartiesInv (execute_paydown ctx info id st).2
    rcases execute_paydown_shape ctx info id st with hh | ⟨d, ms, hl, hs, hh⟩ <;> rw [hh]
    · exact h
    · intro e he
      rcases mem_saveRec Paydown.id he with rfl | he'
      · exact h d (mem_of_loadRec Paydown.id hl).1
      · exact h e he'

theorem PartiesInv_reachable {st : Ledger} (h : Reachable st) : PartiesInv st := by
  induction h with
  | init => intro d hd; cases hd
  | step ctx info msg st hst ih => exact PartiesInv_execute ctx info msg st ih

theorem SaleInfoInv_execute (ctx : Ctx) (info : MessageInfo) (msg : ExecuteMsg)
    (st : Ledger) (h : SaleInfoInv st) : SaleInfoInv (execute ctx info msg st).2 := by
  have hsave : ∀ (d0 : Paydown),
      (d0.sale_info.isSome = true ↔ d0.kind = PaydownKind.PaydownAndSell) →
      SaleInfoInv (Ledger.mk st.assets st.pledges (saveRec Paydown.id st.paydowns d0)) := by
    intro d0 hd0 e he
    rcases mem_saveRec Paydown.id he with rfl | he'
    · exact hd0
    · exact h e he'
  cases msg with
  | ProposePledge id assets ta amd =>
    show SaleInfoInv (propose_pledge ctx info id assets ta amd st).2
    rcases propose_pledge_shape ctx info id assets ta amd st with hh | ⟨_, _, hh⟩ <;>
      rw [hh]
    · exact h
    · exact h
  | AcceptPledge id =>
    show SaleInfoInv (accept_pledge ctx info id st).2
    rcases accept_pledge_shape ctx info id st with hh | ⟨p, _, _, hh⟩ <;> rw [hh]
    · exact h
    · exact h
  | CancelPledge id =>
    show SaleInfoInv (cancel_pledge ctx info id st).2
    rcases cancel_pledge_shape ctx info id st with hh | ⟨p, _, _, hh⟩ <;> rw [hh]
    · exact h
    · exact h
  | ExecutePledge id =>
    show SaleInfoInv (execute_pledge ctx info id st).2
    rcases execute_pledge_shape ctx info id st with hh | ⟨p, _, _, hh⟩ <;> rw [hh]
    · exact h
    · exact h
  | ProposePaydown id assets tp =>
    show SaleInfoInv (propose_paydown_common ctx info id
      (Paydown.mk id assets tp PaydownKind.PaydownOnly PaydownState.Proposed
        [] none) st).2
    rcases propose_paydown_common_shape ctx info id
      (Paydown.mk id assets tp PaydownKind.PaydownOnly PaydownState.Proposed [] none)
      st with hh | ⟨_, _, hh⟩ <;> rw [hh]
    · exact h
    · apply hsave
      simp [Option.isSome]
  | ProposePaydownAndSell id assets tp buyer price =>
    show SaleInfoInv (propose_paydown_common ctx info id
      (Paydown.mk id assets tp PaydownKind.PaydownAndSell PaydownState.Proposed
        [] (some (PaydownSaleInfo.mk buyer price))) st).2
    rcases propose_paydown_common_shape ctx info id
      (Paydown.mk id assets tp PaydownKind.PaydownAndSell PaydownState.Proposed
        [] (some (PaydownSaleInfo.mk buyer price))) st with hh | ⟨_, _, hh⟩ <;>
      rw [hh]
    · exact h
    · apply hsave
      simp [Option.isSome]
  | AcceptPaydown id =>
    show SaleInfoInv (accept_paydown ctx info id st).2
    rcases accept_paydown_shape ctx info id st with hh | ⟨d, party, hl, hp, hnp, hs, hh⟩ <;>
      rw [hh]
    · exact h
    · apply hsave
      rw [accept_paydown_record_sale_info, accept_paydown_record_kind]
      exact h d (mem_of_loadRec Paydown.id hl).1
  | CancelPaydown id =>
    show SaleInfoInv (cancel_paydown ctx info id st).2
    rcases cancel_paydown_shape ctx info id st with hh | ⟨d, hl, hs, hh⟩ <;> rw [hh]
    · exact h
    · intro e he
      rcases mem_saveRec Paydown.id he with rfl | he'
      · exact h d (mem_of_loadRec Paydown.id hl).1
      · exact h e he'
  | ExecutePaydown id =>
    show SaleInfoInv (execute_paydown ctx info id st).2
    rcases execute_paydown_shape ctx info id st with hh | ⟨d, ms, hl, hs, hh⟩ <;> rw [hh]
    · exact h
    · intro e he
      rcases mem_saveRec Paydown.id he with rfl | he'
      · exact h d (mem_of_loadRec Paydown.id hl).1
      · exact h e he'

theorem accept_paydown_party_no_unwrap (ctx : Ctx) (info : MessageInfo)
    (d : Paydown) (h : d.sale_info.isSome = true ↔ d.kind = PaydownKind.PaydownAndSell) :
    accept_paydown_party ctx info d ≠ Except.error ContractError.NoneUnwrap := by
  unfold accept_paydown_party
  cases hk : d.kind with
  | PaydownOnly =>
    dsimp only
    split
    · simp
    · simp
  | PaydownAndSell =>
    dsimp only
    split
    · simp
    · cases hsi : d.sale_info with
      | none =>
        exfalso
        have := h.mpr hk
        rw [hsi] at this
        cases this
      | some si =>
        dsimp only
        split
        · simp
        · simp

theorem accept_paydown_party_buyer_kind (ctx : Ctx) (info : MessageInfo)
    (d : Paydown)
    (h : accept_paydown_party ctx info d = Except.ok ContractParty.Buyer) :
    d.kind = PaydownKind.PaydownAndSell := by
  unfold accept_paydown_party at h
  cases hk : d.kind with
  | PaydownOnly =>
    rw [hk] at h
    dsimp only at h
    split at h
    · cases h
    · injection h with h
      cases h
  | PaydownAndSell => rfl

theorem execute_no_none_unwrap (ctx : Ctx) (info : MessageInfo)
    (msg : ExecuteMsg) (st : Ledger) (h : SaleInfoInv st) :
    (execute ctx info msg st).1 ≠ Except.error ContractError.NoneUnwrap := by
  unfold execute
  cases msg with
  | ProposePledge id assets ta amd =>
    dsimp only
    unfold propose_pledge
    cases load_pledge st id with
    | some v => simp
    | none =>
      dsimp only
      split
      · simp
      · split
        · simp
        · simp
  | AcceptPledge id =>
    dsimp only
    unfold accept_pledge
    cases load_pledge st id with
    | none => simp
    | some p =>
      dsimp only
      split
      · simp
      · split
        · simp
        · cases info.funds.head? with
          | none => simp
          | some c =>
            dsimp only
            split
            · simp
            · simp
  | CancelPledge id =>
    dsimp only
    unfold cancel_pledge
    cases load_pledge st id with
    | none => simp
    | some p =>
      dsimp only
      split
      · simp
      · split
        · simp
        · simp
  | ExecutePledge id =>
    dsimp only
    unfold execute_pledge
    cases load_pledge st id with
    | none => simp
    | some p =>
      dsimp only
      split
      · simp
      · split
        · simp
        · simp
  | ProposePaydown id assets tp =>
    dsimp only
    unfold propose_paydown propose_paydown_common
    cases load_paydown st id with
    | some v => simp
    | none =>
      dsimp only
      split
      · simp
      · split
        · simp
        · cases info.funds.head? with
          | none => simp
          | some c =>
            dsimp only
            split
            · simp
            · simp
  | ProposePaydownAndSell id assets tp buyer price =>
    dsimp only
    unfold propose_paydown_and_sell propose_paydown_common
    cases load_paydown st id with
    | some v => simp
    | none =>
      dsimp only
      split
      · simp
      · split
        · simp
        · cases info.funds.head? with
          | none => simp
          | some c =>
            dsimp only
            split
            · simp
            · simp
  | AcceptPaydown id =>
    dsimp only
    unfold accept_paydown
    cases hl : load_paydown st id with
    | none => simp
    | some d =>
      dsimp only
      have hd : d.sale_info.isSome = true ↔ d.kind = PaydownKind.PaydownAndSell :=
        h d (mem_of_loadRec Paydown.id hl).1
      cases hp : accept_paydown_party ctx info d with
      | error e =>
        intro heq
        injection heq with heq
        rw [heq] at hp
        exact accept_paydown_party_no_unwrap ctx info d hd hp
      | ok party =>
        dsimp only
        split
        · simp
        · split
          · simp
          · split
            · simp
            · split
              next hb =>
                cases info.funds.head? with
                | none => simp
                | some c =>
                  cases hsi : d.sale_info with
                  | none =>
                    exfalso
                    have hks : d.kind = PaydownKind.PaydownAndSell :=
                      accept_paydown_party_buyer_kind ctx info d (hb ▸ hp)
                    have := hd.mpr hks
                    rw [hsi] at this
                    cases this
                  | some si =>
                    dsimp only
                    split
                    · simp
                    · simp
              next hb => simp
  | CancelPaydown id =>
    dsimp only
    unfold cancel_paydown
    cases hl : load_paydown st id with
    | none => simp
    | some d =>
      dsimp only
      have hd : d.sale_info.isSome = true ↔ d.kind = PaydownKind.PaydownAndSell :=
        h d (mem_of_loadRec Paydown.id hl).1
      split
      · simp
      · split
        · simp
        · split
          next h3 =>
            cases hsi : d.sale_info with
            | none =>
              exfalso
              have := hd.mpr h3.1
              rw [hsi] at this
              cases this
            | some si => simp
          next h3 => simp
  | ExecutePaydown id =>
    dsimp only
    unfold execute_paydown
    cases hl : load_paydown st id with
    | none => simp
    | some d =>
      dsimp only
      have hd : d.sale_info.isSome = true ↔ d.kind = PaydownKind.PaydownAndSell :=
        h d (mem_of_loadRec Paydown.id hl).1
      split
      · simp
      · split
        · simp
        · split
          next e he =>
            intro heq
            injection heq with heq
            rw [heq] at he
            -- the sale-message computation yielded NoneUnwrap: only possible
            -- with kind PaydownAndSell and missing sale_info
            by_cases h3 : d.kind = PaydownKind.PaydownAndSell
            · rw [if_pos h3] at he
              cases hsi : d.sale_info with
              | none =>
                have := hd.mpr h3
                rw [hsi] at this
                cases this
              | some si =>
                rw [hsi] at he
                cases he
            · rw [if_neg h3] at he
              cases he
          next extra he => simp

end InvariantHelpers

section ClaimHelpers

theorem load_pledge_save (st : Ledger) (v : Pledge) (id : String) :
    load_pledge (save_pledge st v) id =
      if id = v.id then some v else load_pledge st id := by
  by_cases hid : id = v.id
  · rw [if_pos hid, hid]
    exact loadRec_saveRec_self Pledge.id st.pledges v
  · rw [if_neg hid]
    exact loadRec_saveRec_ne Pledge.id st.pledges v id hid

theorem load_paydown_save (st : Ledger) (v : Paydown) (id : String) :
    load_paydown (save_paydown st v) id =
      if id = v.id then some v else load_paydown st id := by
  by_cases hid : id = v.id
  · rw [if_pos hid, hid]
    exact loadRec_saveRec_self Paydown.id st.paydowns v
  · rw [if_neg hid]
    exact loadRec_saveRec_ne Paydown.id st.paydowns v id hid

theorem mem_remove_assets (l : List (String × AssetState)) (ids : List String)
    (x : String × AssetState) :
    x ∈ remove_assets l ids ↔ x ∈ l ∧ x.1 ∉ ids := by
  unfold remove_assets
  rw [List.mem_filter]
  simp

theorem assets_in_inventory_iff_lookup (st : Ledger) (assets : List String)
    (hnd : (st.assets.map Prod.fst).Nodup) :
    assets_in_inventory st (some AssetState.Inventory) assets = true ↔
      ∀ a ∈ assets, lookupA st.assets a = some AssetState.Inventory := by
  constructor
  · exact assets_in_inventory_lookup st assets hnd
  · intro h
    rw [assets_in_inventory, vec_contains_iff]
    intro a ha
    rw [mem_get_asset_ids_some]
    exact mem_of_lookupA (h a ha)

theorem accept_paydown_record_state_cases (d : Paydown) (party : ContractParty) :
    (accept_paydown_record d party).state = PaydownState.Accepted ∨
    (accept_paydown_record d party).state = d.state := by
  unfold accept_paydown_record
  cases d.kind <;> dsimp only <;> split
  · exact Or.inl rfl
  · exact Or.inr rfl
  · exact Or.inl rfl
  · exact Or.inr rfl

theorem accept_paydown_party_congr (ctx : Ctx) (info info2 : MessageInfo)
    (d d2 : Paydown) (hs : info2.sender = info.sender) (hk : d2.kind = d.kind)
    (hsi : d2.sale_info = d.sale_info) :
    accept_paydown_party ctx info2 d2 = accept_paydown_party ctx info d := by
  unfold accept_paydown_party
  rw [hk, hsi, hs]

theorem pledge_trans_save (st : Ledger) (p0 new : Pledge) (id : String)
    (p p' : Pledge) (hkey : new.id = p0.id)
    (hl0 : load_pledge st p0.id = some p0)
    (hp : load_pledge st id = some p)
    (hp' : load_pledge (save_pledge st new) id = some p')
    (hedge : p0.state = new.state ∨ pledgeEdgeOk p0.state new.state = true) :
    p.state = p'.state ∨ pledgeEdgeOk p.state p'.state = true := by
  rw [load_pledge_save] at hp'
  by_cases hid : id = new.id
  · rw [if_pos hid] at hp'
    injection hp' with hp'
    rw [hid, hkey, hl0] at hp
    injection hp with hp
    rw [← hp, ← hp']
    exact hedge
  · rw [if_neg hid, hp] at hp'
    injection hp' with hp'
    exact Or.inl (by rw [hp'])

theorem paydown_trans_save (st : Ledger) (d0 new : Paydown) (id : String)
    (d d' : Paydown) (hkey : new.id = d0.id)
    (hl0 : load_paydown st d0.id = some d0)
    (hd : load_paydown st id = some d)
    (hd' : load_paydown (save_paydown st new) id = some d')
    (hedge : d0.state = new.state ∨ paydownEdgeOk d0.state new.state = true) :
    d.state = d'.state ∨ paydownEdgeOk d.state d'.state = true := by
  rw [load_paydown_save] at hd'
  by_cases hid : id = new.id
  · rw [if_pos hid] at hd'
    injection hd' with hd'
    rw [hid, hkey, hl0] at hd
    injection hd with hd
    rw [← hd, ← hd']
    exact hedge
  · rw [if_neg hid, hd] at hd'
    injection hd' with hd'
    exact Or.inl (by rw [hd'])

end ClaimHelpers

section Claims

/-- Claim C5: for every operation of the pledge and paydown engines and every
starting ledger state, if the operation returns an error then the ledger
(asset, pledge and paydown records) after the call is identical to the
ledger before the call. -/
theorem thm_C5 (ctx : Ctx) (info : MessageInfo) (msg : ExecuteMsg)
    (st : Ledger) (e : ContractError)
    (h : (execute ctx info msg st).1 = Except.error e) :
    (execute ctx info msg st).2 = st := by
  rcases execute_error_unchanged ctx info msg st with h1 | h1
  · rw [h] at h1
    cases h1
  · exact h1

/-- Witness for C5: accepting a nonexistent pledge errors and leaves the
empty ledger unchanged. -/
theorem thm_C5_witness :
    (execute ctxW (infoW "w") (ExecuteMsg.AcceptPledge "nope") initLedger).1 =
      Except.error ContractError.NotFound ∧
    (execute ctxW (infoW "w") (ExecuteMsg.AcceptPledge "nope") initLedger).2 =
      initLedger :=
  ⟨rfl,
    thm_C5 ctxW (infoW "w") (ExecuteMsg.AcceptPledge "nope") initLedger
      ContractError.NotFound rfl⟩

/-- Claim C10: every operation preserves the invariant that a paydown record has
sale_info present iff its kind is PaydownAndSell; under this invariant the
sale_info.unwrap() calls in AcceptPaydown, CancelPaydown and ExecutePaydown
are never reached with a missing value (no panic, modelled as the
NoneUnwrap error never being returned). -/
theorem thm_C10 (ctx : Ctx) (info : MessageInfo) (msg : ExecuteMsg)
    (st : Ledger) (h : SaleInfoInv st) :
    SaleInfoInv (execute ctx info msg st).2 ∧
    (execute ctx info msg st).1 ≠ Except.error ContractError.NoneUnwrap :=
  ⟨SaleInfoInv_execute ctx info msg st h, execute_no_none_unwrap ctx info msg st h⟩

/-- Witness for C10: the invariant holds for the fixture paydown-and-sell
state and executing the paydown neither panics nor breaks it. -/
theorem thm_C10_witness :
    SaleInfoInv (execute ctxW (infoW "w") (ExecuteMsg.AcceptPaydown "E1") stE4).2 ∧
    (execute ctxW (infoW "w") (ExecuteMsg.AcceptPaydown "E1") stE4).1 ≠
      Except.error ContractError.NoneUnwrap :=
  thm_C10 ctxW (infoW "w") (ExecuteMsg.AcceptPaydown "E1") stE4 (by
    intro d hd
    fin_cases hd
    simp [Paydown.sale_info, Paydown.kind])

/-- Counterexample for C2: the claimed equality between the reported inventory
and the assets of non-terminal pledges/paydowns fails at a reachable state:
after a partial paydown, asset a still belongs to the non-terminal
(Executed) pledge P1 but is no longer reported by listInventory. -/
theorem thm_C2_counterexample :
    Reachable stP6 ∧
    (∃ p ∈ stP6.pledges, p.state = PledgeState.Executed ∧ "a" ∈ p.assets) ∧
    "a" ∉ list_inventory stP6 := by
  refine ⟨?_, by decide, by decide⟩
  exact Reachable.step ctxW (infoW "w") (ExecuteMsg.ExecutePaydown "D1") stP5
    (Reachable.step ctxW (infoW "w") (ExecuteMsg.AcceptPaydown "D1") stP4
      (Reachable.step ctxW (infoWF "o" 100 "usd")
        (ExecuteMsg.ProposePaydown "D1" ["a"] 100) stP3
        (Reachable.step ctxW (infoW "w") (ExecuteMsg.ExecutePledge "P1") stP2
          (Reachable.step ctxW (infoWF "w" 1000 "usd")
            (ExecuteMsg.AcceptPledge "P1") stP1
            (Reachable.step ctxW (infoW "o")
              (ExecuteMsg.ProposePledge "P1" ["a", "b"] 1000 "amd") initLedger
              Reachable.init)))))

/-- Claim C2 as amended: at every reachable state, listInventory reports exactly
the assets recorded Inventory or PaydownProposed; the PaydownProposed
records are exactly the assets of non-terminal (Proposed/Accepted)
paydowns; and every reported asset belongs to some Executed pledge — but
the converse inclusion (every asset of a non-terminal pledge is reported)
does not hold, see the counterexample. -/
theorem thm_C2 (st : Ledger) (h : Reachable st) :
    (∀ a, a ∈ list_inventory st ↔
      (lookupA st.assets a = some AssetState.Inventory ∨
       lookupA st.assets a = some AssetState.PaydownProposed)) ∧
    (∀ a, lookupA st.assets a = some AssetState.PaydownProposed ↔
      ∃ d ∈ st.paydowns, paydownOpen d ∧ a ∈ d.assets) ∧
    (∀ a, a ∈ list_inventory st →
      ∃ p ∈ st.pledges, p.state = PledgeState.Executed ∧ a ∈ p.assets) := by
  have hInv := Inv_reachable h
  refine ⟨fun a => mem_list_inventory_lookup st a hInv.wfA, ?_, ?_⟩
  · intro a
    constructor
    · exact hInv.paydownProposedRecord a
    · rintro ⟨d, hd, hdo, hda⟩
      exact hInv.openPaydownAssets d hd hdo a hda
  · intro a ha
    rw [mem_list_inventory_lookup st a hInv.wfA] at ha
    rcases ha with ha | ha
    · exact hInv.execWitness a AssetState.Inventory ha (Or.inl rfl)
    · exact hInv.execWitness a AssetState.PaydownProposed ha (Or.inr rfl)

/-- Witness for C2 (amended), at the empty initial ledger. -/
theorem thm_C2_witness :
    (∀ a, a ∈ list_inventory initLedger ↔
      (lookupA initLedger.assets a = some AssetState.Inventory ∨
       lookupA initLedger.assets a = some AssetState.PaydownProposed)) ∧
    (∀ a, lookupA initLedger.assets a = some AssetState.PaydownProposed ↔
      ∃ d ∈ initLedger.paydowns, paydownOpen d ∧ a ∈ d.assets) ∧
    (∀ a, a ∈ list_inventory initLedger →
      ∃ p ∈ initLedger.pledges, p.state = PledgeState.Executed ∧ a ∈ p.assets) :=
  thm_C2 initLedger Reachable.init

/-- Claim C3: for every pledge, the state field only ever changes along the
edges Proposed to Accepted, Proposed to Cancelled, Accepted to Executed,
Accepted to Cancelled, and Executed to Closed, across every operation from
every (well-keyed) ledger state. -/
theorem thm_C3 (ctx : Ctx) (info : MessageInfo) (msg : ExecuteMsg)
    (st : Ledger) (hwf : (st.pledges.map Pledge.id).Nodup) (id : String)
    (p p' : Pledge) (hp : load_pledge st id = some p)
    (hp' : load_pledge (execute ctx info msg st).2 id = some p') :
    p.state = p'.state ∨ pledgeEdgeOk p.state p'.state = true := by
  have huneq : ∀ {stx : Ledger}, stx.pledges = st.pledges →
      load_pledge stx id = some p' → p.state = p'.state ∨
        pledgeEdgeOk p.state p'.state = true := by
    intro stx hx hl
    have : load_pledge stx id = load_pledge st id := by
      show loadRec Pledge.id stx.pledges id = loadRec Pledge.id st.pledges id
      rw [hx]
    rw [this, hp] at hl
    injection hl with hl
    exact Or.inl (by rw [hl])
  cases msg with
  | ProposePledge id0 assets ta amd =>
    rcases propose_pledge_shape ctx info id0 assets ta amd st with h | ⟨hl, hna, h⟩
    · rw [show (execute ctx info (ExecuteMsg.ProposePledge id0 assets ta amd) st).2 =
        (propose_pledge ctx info id0 assets ta amd st).2 from rfl, h] at hp'
      exact huneq rfl hp'
    · rw [show (execute ctx info (ExecuteMsg.ProposePledge id0 assets ta amd) st).2 =
        (propose_pledge ctx info id0 assets ta amd st).2 from rfl, h] at hp'
      have hp'' : load_pledge
          (save_pledge st (Pledge.mk id0 assets ta amd PledgeState.Proposed)) id =
          some p' := hp'
      rw [load_pledge_save] at hp''
      by_cases hid : id = (Pledge.mk id0 assets ta amd PledgeState.Proposed).id
      · rw [hid] at hp
        rw [hl] at hp
        cases hp
      · rw [if_neg hid, hp] at hp''
        injection hp'' with hp''
        exact Or.inl (by rw [hp''])
  | AcceptPledge id0 =>
    rcases accept_pledge_shape ctx info id0 st with h | ⟨p0, hl, hs, h⟩
    · rw [show (execute ctx info (ExecuteMsg.AcceptPledge id0) st).2 =
        (accept_pledge ctx info id0 st).2 from rfl, h] at hp'
      exact huneq rfl hp'
    · rw [show (execute ctx info (ExecuteMsg.AcceptPledge id0) st).2 =
        (accept_pledge ctx info id0 st).2 from rfl, h] at hp'
      refine pledge_trans_save st p0 ({ p0 with state := PledgeState.Accepted })
        id p p' rfl ?_ hp hp' ?_
      · rw [show p0.id = id0 from (mem_of_loadRec Pledge.id hl).2]
        exact hl
      · rw [hs]
        exact Or.inr rfl
  | CancelPledge id0 =>
    rcases cancel_pledge_shape ctx info id0 st with h | ⟨p0, hl, hs, h⟩
    · rw [show (execute ctx info (ExecuteMsg.CancelPledge id0) st).2 =
        (cancel_pledge ctx info id0 st).2 from rfl, h] at hp'
      exact huneq rfl hp'
    · rw [show (execute ctx info (ExecuteMsg.CancelPledge id0) st).2 =
        (cancel_pledge ctx info id0 st).2 from rfl, h] at hp'
      have hp'' : load_pledge
          (save_pledge st ({ p0 with state := PledgeState.Cancelled })) id =
          some p' := hp'
      refine pledge_trans_save st p0 ({ p0 with state := PledgeState.Cancelled })
        id p p' rfl ?_ hp hp'' ?_
      · rw [show p0.id = id0 from (mem_of_loadRec Pledge.id hl).2]
        exact hl
      · rcases hs with hs | hs <;> rw [hs]
        · exact Or.inr rfl
        · exact Or.inr rfl
  | ExecutePledge id0 =>
    rcases execute_pledge_shape ctx info id0 st with h | ⟨p0, hl, hs, h⟩
    · rw [show (execute ctx info (ExecuteMsg.ExecutePledge id0) st).2 =
        (execute_pledge ctx info id0 st).2 from rfl, h] at hp'
      exact huneq rfl hp'
    · rw [show (execute ctx info (ExecuteMsg.ExecutePledge id0) st).2 =
        (execute_pledge ctx info id0 st).2 from rfl, h] at hp'
      have hp'' : load_pledge
          (save_pledge st ({ p0 with state := PledgeState.Executed })) id =
          some p' := hp'
      refine pledge_trans_save st p0 ({ p0 with state := PledgeState.Executed })
        id p p' rfl ?_ hp hp'' ?_
      · rw [show p0.id = id0 from (mem_of_loadRec Pledge.id hl).2]
        exact hl
      · rw [hs]
        exact Or.inr rfl
  | ProposePaydown id0 assets tp =>
    rcases propose_paydown_common_shape ctx info id0
      (Paydown.mk id0 assets tp PaydownKind.PaydownOnly PaydownState.Proposed
        [] none) st with h | ⟨_, _, h⟩
    · rw [show (execute ctx info (ExecuteMsg.ProposePaydown id0 assets tp) st).2 =
        (propose_paydown_common ctx info id0 _ st).2 from rfl, h] at hp'
      exact huneq rfl hp'
    · rw [show (execute ctx info (ExecuteMsg.ProposePaydown id0 assets tp) st).2 =
        (propose_paydown_common ctx info id0 _ st).2 from rfl, h] at hp'
      exact huneq rfl hp'
  | ProposePaydownAndSell id0 assets tp buyer price =>
    rcases propose_paydown_common_shape ctx info id0
      (Paydown.mk id0 assets tp PaydownKind.PaydownAndSell PaydownState.Proposed
        [] (some (PaydownSaleInfo.mk buyer price))) st with h | ⟨_, _, h⟩
    · rw [show (execute ctx info
        (ExecuteMsg.ProposePaydownAndSell id0 assets tp buyer price) st).2 =
        (propose_paydown_common ctx info id0 _ st).2 from rfl, h] at hp'
      exact huneq rfl hp'
    · rw [show (execute ctx info
        (ExecuteMsg.ProposePaydownAndSell id0 assets tp buyer price) st).2 =
        (propose_paydown_common ctx info id0 _ st).2 from rfl, h] at hp'
      exact huneq rfl hp'
  | AcceptPaydown id0 =>
    rcases accept_paydown_shape ctx info id0 st with h | ⟨d, party, hl, hpp, hnp, hs, h⟩
    · rw [show (execute ctx info (ExecuteMsg.AcceptPaydown id0) st).2 =
        (accept_paydown ctx info id0 st).2 from rfl, h] at hp'
      exact huneq rfl hp'
    · rw [show (execute ctx info (ExecuteMsg.AcceptPaydown id0) st).2 =
        (accept_paydown ctx info id0 st).2 from rfl, h] at hp'
      exact huneq rfl hp'
  | CancelPaydown id0 =>
    rcases cancel_paydown_shape ctx info id0 st with h | ⟨d, hl, hs, h⟩
    · rw [show (execute ctx info (ExecuteMsg.CancelPaydown id0) st).2 =
        (cancel_paydown ctx info id0 st).2 from rfl, h] at hp'
      exact huneq rfl hp'
    · rw [show (execute ctx info (ExecuteMsg.CancelPaydown id0) st).2 =
        (cancel_paydown ctx info id0 st).2 from rfl, h] at hp'
      exact huneq rfl hp'
  | ExecutePaydown id0 =>
    rcases execute_paydown_shape ctx info id0 st with h | ⟨d, ms, hl, hs, h⟩
    · rw [show (execute ctx info (ExecuteMsg.ExecutePaydown id0) st).2 =
        (execute_paydown ctx info id0 st).2 from rfl, h] at hp'
      exact huneq rfl hp'
    · rw [show (execute ctx info (ExecuteMsg.ExecutePaydown id0) st).2 =
        (execute_paydown ctx info id0 st).2 from rfl, h] at hp'
      -- the closing loop transitions Executed pledges to Closed
      have hp'' : loadRec Pledge.id
          (close_pledges_loop ctx.querier ctx.contract_info.facility.originator
            (execute_paydown_closed (execute_paydown_base st d)
              (find_pledge_ids_with_assets (execute_paydown_base st d).pledges
                d.assets (some PledgeState.Executed)))
            (execute_paydown_base st d).pledges ms).1 id = some p' := hp'
      have hbaseP : (execute_paydown_base st d).pledges = st.pledges := rfl
      rw [hbaseP] at hp''
      rw [loadRec_close_loop_some ctx.querier ctx.contract_info.facility.originator
        _ st.pledges ms id p hp] at hp''
      by_cases hid : id ∈ execute_paydown_closed (execute_paydown_base st d)
        (find_pledge_ids_with_assets st.pledges d.assets (some PledgeState.Executed))
      · rw [if_pos hid] at hp''
        injection hp'' with hp''
        have hpe : p.state = PledgeState.Executed := by
          rw [mem_execute_paydown_closed] at hid
          obtain ⟨haff, _⟩ := hid
          rw [mem_find_pledge_ids] at haff
          obtain ⟨pa, hpa, hpaid, hpae, _⟩ := haff
          have : pa = p := by
            have h1 := loadRec_of_mem_nodup Pledge.id hwf hpa
            rw [hpaid] at h1
            rw [show load_pledge st id = loadRec Pledge.id st.pledges id from rfl,
              h1] at hp
            injection hp
          rw [← this]
          exact hpae
        rw [hpe, ← hp'']
        exact Or.inr rfl
      · rw [if_neg hid] at hp''
        injection hp'' with hp''
        exact Or.inl (by rw [hp''])

/-- Witness for C3: executing paydown D1 from the fixture state leaves the
Executed pledge P1 with an unchanged (or legal-edge) state. -/
theorem thm_C3_witness :
    (Pledge.mk "P1" ["a", "b"] 1000 "amd" PledgeState.Executed).state =
      (Pledge.mk "P1" ["a", "b"] 1000 "amd" PledgeState.Executed).state ∨
    pledgeEdgeOk (Pledge.mk "P1" ["a", "b"] 1000 "amd" PledgeState.Executed).state
      (Pledge.mk "P1" ["a", "b"] 1000 "amd" PledgeState.Executed).state = true :=
  thm_C3 ctxW (infoW "w") (ExecuteMsg.ExecutePaydown "D1") stP5 (by decide)
    "P1" (Pledge.mk "P1" ["a", "b"] 1000 "amd" PledgeState.Executed)
    (Pledge.mk "P1" ["a", "b"] 1000 "amd" PledgeState.Executed)
    (by decide) (by decide)

/-- Claim C4: for every paydown, the state field only ever changes along the
edges Proposed to Accepted, Proposed to Cancelled, Accepted to Executed,
Accepted to Cancelled; and CancelPaydown / CancelPledge fail with a state
error on any paydown / pledge whose state is Executed, Closed or
Cancelled. -/
theorem thm_C4 (ctx : Ctx) (info : MessageInfo) (st : Ledger) (id : String) :
    (∀ (msg : ExecuteMsg) (d d' : Paydown), load_paydown st id = some d →
      load_paydown (execute ctx info msg st).2 id = some d' →
      d.state = d'.state ∨ paydownEdgeOk d.state d'.state = true) ∧
    (∀ d : Paydown, load_paydown st id = some d →
      d.state = PaydownState.Executed ∨ d.state = PaydownState.Cancelled →
      (cancel_paydown ctx info id st).1 = Except.error (ContractError.StateError
        "Unable to cancel paydown: Paydown is not in the proposed or accepted state.")) ∧
    (∀ p : Pledge, load_pledge st id = some p →
      p.state = PledgeState.Executed ∨ p.state = PledgeState.Closed ∨
        p.state = PledgeState.Cancelled →
      (cancel_pledge ctx info id st).1 = Except.error (ContractError.StateError
        "Unable to cancel pledge: Pledge is not in the proposed or accepted state.")) := by
  refine ⟨?_, ?_, ?_⟩
  · intro msg d d' hd hd'
    have huneq : ∀ {stx : Ledger}, stx.paydowns = st.paydowns →
        load_paydown stx id = some d' → d.state = d'.state ∨
          paydownEdgeOk d.state d'.state = true := by
      intro stx hx hl
      have : load_paydown stx id = load_paydown st id := by
        show loadRec Paydown.id stx.paydowns id = loadRec Paydown.id st.paydowns id
        rw [hx]
      rw [this, hd] at hl
      injection hl with hl
      exact Or.inl (by rw [hl])
    cases msg with
    | ProposePledge id0 assets ta amd =>
      rcases propose_pledge_shape ctx info id0 assets ta amd st with h | ⟨_, _, h⟩ <;>
        rw [show (execute ctx info (ExecuteMsg.ProposePledge id0 assets ta amd) st).2 =
          (propose_pledge ctx info id0 assets ta amd st).2 from rfl, h] at hd'
      · exact huneq rfl hd'
      · exact huneq rfl hd'
    | AcceptPledge id0 =>
      rcases accept_pledge_shape ctx info id0 st with h | ⟨p0, _, _, h⟩ <;>
        rw [show (execute ctx info (ExecuteMsg.AcceptPledge id0) st).2 =
          (accept_pledge ctx info id0 st).2 from rfl, h] at hd'
      · exact huneq rfl hd'
      · exact huneq rfl hd'
    | CancelPledge id0 =>
      rcases cancel_pledge_shape ctx info id0 st with h | ⟨p0, _, _, h⟩ <;>
        rw [show (execute ctx info (ExecuteMsg.CancelPledge id0) st).2 =
          (cancel_pledge ctx info id0 st).2 from rfl, h] at hd'
      · exact huneq rfl hd'
      · exact huneq rfl hd'
    | ExecutePledge id0 =>
      rcases execute_pledge_shape ctx info id0 st with h | ⟨p0, _, _, h⟩ <;>
        rw [show (execute ctx info (ExecuteMsg.ExecutePledge id0) st).2 =
          (execute_pledge ctx info id0 st).2 from rfl, h] at hd'
      · exact huneq rfl hd'
      · exact huneq rfl hd'
    | ProposePaydown id0 assets tp =>
      rcases propose_paydown_common_shape ctx info id0
        (Paydown.mk id0 assets tp PaydownKind.PaydownOnly PaydownState.Proposed
          [] none) st with h | ⟨hl0, _, h⟩ <;>
        rw [show (execute ctx info (ExecuteMsg.ProposePaydown id0 assets tp) st).2 =
          (propose_paydown_common ctx info id0 _ st).2 from rfl, h] at hd'
      · exact huneq rfl hd'
      · have hd'' : load_paydown (save_paydown st
            (Paydown.mk id0 assets tp PaydownKind.PaydownOnly PaydownState.Proposed
              [] none)) id = some d' := hd'
        rw [load_paydown_save] at hd''
        by_cases hid : id = (Paydown.mk id0 assets tp PaydownKind.PaydownOnly
            PaydownState.Proposed [] none).id
        · rw [hid] at hd
          rw [hl0] at hd
          cases hd
        · rw [if_neg hid, hd] at hd''
          injection hd'' with hd''
          exact Or.inl (by rw [hd''])
    | ProposePaydownAndSell id0 assets tp buyer price =>
      rcases propose_paydown_common_shape ctx info id0
        (Paydown.mk id0 assets tp PaydownKind.PaydownAndSell PaydownState.Proposed
          [] (some (PaydownSaleInfo.mk buyer price))) st with h | ⟨hl0, _, h⟩ <;>
        rw [show (execute ctx info
          (ExecuteMsg.ProposePaydownAndSell id0 assets tp buyer price) st).2 =
          (propose_paydown_common ctx info id0 _ st).2 from rfl, h] at hd'
      · exact huneq rfl hd'
      · have hd'' : load_paydown (save_paydown st
            (Paydown.mk id0 assets tp PaydownKind.PaydownAndSell PaydownState.Proposed
              [] (some (PaydownSaleInfo.mk buyer price)))) id = some d' := hd'
        rw [load_paydown_save] at hd''
        by_cases hid : id = (Paydown.mk id0 assets tp PaydownKind.PaydownAndSell
            PaydownState.Proposed [] (some (PaydownSaleInfo.mk buyer price))).id
        · rw [hid] at hd
          rw [hl0] at hd
          cases hd
        · rw [if_neg hid, hd] at hd''
          injection hd'' with hd''
          exact Or.inl (by rw [hd''])
    | AcceptPaydown id0 =>
      rcases accept_paydown_shape ctx info id0 st with h | ⟨d0, party, hl, hpp, hnp, hs, h⟩ <;>
        rw [show (execute ctx info (ExecuteMsg.AcceptPaydown id0) st).2 =
          (accept_paydown ctx info id0 st).2 from rfl, h] at hd'
      · exact huneq rfl hd'
      · refine paydown_trans_save st d0 (accept_paydown_record d0 party) id d d'
          (accept_paydown_record_id d0 party) ?_ hd hd' ?_
        · rw [show d0.id = id0 from (mem_of_loadRec Paydown.id hl).2]
          exact hl
        · rcases accept_paydown_record_state_cases d0 party with hc | hc
          · rw [hc, hs]
            exact Or.inr rfl
          · rw [hc]
            exact Or.inl rfl
    | CancelPaydown id0 =>
      rcases cancel_paydown_shape ctx info id0 st with h | ⟨d0, hl, hs, h⟩ <;>
        rw [show (execute ctx info (ExecuteMsg.CancelPaydown id0) st).2 =
          (cancel_paydown ctx info id0 st).2 from rfl, h] at hd'
      · exact huneq rfl hd'
      · have hd'' : load_paydown (save_paydown st
            ({ d0 with state := PaydownState.Cancelled })) id = some d' := hd'
        refine paydown_trans_save st d0 ({ d0 with state := PaydownState.Cancelled })
          id d d' rfl ?_ hd hd'' ?_
        · rw [show d0.id = id0 from (mem_of_loadRec Paydown.id hl).2]
          exact hl
        · rcases hs with hs | hs <;> rw [hs]
          · exact Or.inr rfl
          · exact Or.inr rfl
    | ExecutePaydown id0 =>
      rcases execute_paydown_shape ctx info id0 st with h | ⟨d0, ms, hl, hs, h⟩ <;>
        rw [show (execute ctx info (ExecuteMsg.ExecutePaydown id0) st).2 =
          (execute_paydown ctx info id0 st).2 from rfl, h] at hd'
      · exact huneq rfl hd'
      · have hd'' : load_paydown (save_paydown st
            ({ d0 with state := PaydownState.Executed })) id = some d' := hd'
        refine paydown_trans_save st d0 ({ d0 with state := PaydownState.Executed })
          id d d' rfl ?_ hd hd'' ?_
        · rw [show d0.id = id0 from (mem_of_loadRec Paydown.id hl).2]
          exact hl
        · rw [hs]
          exact Or.inr rfl
  · intro d hd hs
    unfold cancel_paydown
    rw [hd]
    dsimp only
    rw [if_pos (by
      rintro (hh | hh) <;> rcases hs with hsx | hsx <;> rw [hsx] at hh <;> cases hh)]
  · intro p hp hs
    unfold cancel_pledge
    rw [hp]
    dsimp only
    rw [if_pos (by
      rintro (hh | hh) <;>
        rcases hs with hsx | hsx | hsx <;> rw [hsx] at hh <;> cases hh)]

/-- Witness for C4: cancelling the Executed paydown D1 and the Executed
pledge P1 at the fixture state both fail with a state error. -/
theorem thm_C4_witness :
    (cancel_paydown ctxW (infoW "w") "D1" stP6).1 =
      Except.error (ContractError.StateError
        "Unable to cancel paydown: Paydown is not in the proposed or accepted state.") ∧
    (cancel_pledge ctxW (infoW "w") "P1" stP6).1 =
      Except.error (ContractError.StateError
        "Unable to cancel pledge: Pledge is not in the proposed or accepted state.") :=
  ⟨(thm_C4 ctxW (infoW "w") stP6 "D1").2.1
      (Paydown.mk "D1" ["a"] 100 PaydownKind.PaydownOnly PaydownState.Executed
        [ContractParty.Warehouse] none) (by decide) (Or.inl rfl),
    (thm_C4 ctxW (infoW "w") stP6 "P1").2.2
      (Pledge.mk "P1" ["a", "b"] 1000 "amd" PledgeState.Executed)
      (by decide) (Or.inl rfl)⟩

/-- The party resolution of accept_paydown when the caller is the
warehouse: always the Warehouse party, for both kinds. -/
theorem accept_paydown_party_warehouse (ctx : Ctx) (info : MessageInfo)
    (d : Paydown) (hsender : info.sender = ctx.contract_info.facility.warehouse) :
    accept_paydown_party ctx info d = Except.ok ContractParty.Warehouse := by
  unfold accept_paydown_party
  cases d.kind with
  | PaydownOnly =>
    dsimp only
    rw [if_neg (not_not_intro hsender.symm)]
  | PaydownAndSell =>
    dsimp only
    rw [if_pos hsender.symm]

/-- Claim C6: for a PaydownAndSell paydown in state Proposed, acceptance by the
Warehouse alone leaves the state Proposed, and the paydown transitions to
Accepted exactly when both Warehouse and Buyer appear in parties_accepted;
for a PaydownOnly paydown, acceptance by the Warehouse transitions it to
Accepted. -/
theorem thm_C6 (ctx : Ctx) (info : MessageInfo) (id : String) (st : Ledger)
    (d : Paydown) (hload : load_paydown st id = some d)
    (hstate : d.state = PaydownState.Proposed)
    (hsender : info.sender = ctx.contract_info.facility.warehouse)
    (hgrant : escrow_grant_ok ctx = true)
    (hnp : ContractParty.Warehouse ∉ d.parties_accepted) :
    (d.kind = PaydownKind.PaydownAndSell →
      ∃ d', (accept_paydown ctx info id st).1 = Except.ok (Response.mk [] [] []) ∧
        load_paydown (accept_paydown ctx info id st).2 id = some d' ∧
        d'.parties_accepted = d.parties_accepted ++ [ContractParty.Warehouse] ∧
        (d'.state = PaydownState.Accepted ↔
          ContractParty.Buyer ∈ d.parties_accepted)) ∧
    (d.kind = PaydownKind.PaydownOnly →
      ∃ d', (accept_paydown ctx info id st).1 = Except.ok (Response.mk [] [] []) ∧
        load_paydown (accept_paydown ctx info id st).2 id = some d' ∧
        d'.parties_accepted = d.parties_accepted ++ [ContractParty.Warehouse] ∧
        d'.state = PaydownState.Accepted) := by
  have hid : d.id = id := (mem_of_loadRec Paydown.id hload).2
  have hres : accept_paydown ctx info id st =
      (Except.ok (Response.mk [] [] []),
        save_paydown st (accept_paydown_record d ContractParty.Warehouse)) := by
    unfold accept_paydown
    rw [hload]
    dsimp only
    rw [accept_paydown_party_warehouse ctx info d hsender]
    dsimp only
    rw [if_neg hnp, if_neg (not_not_intro hstate), if_neg (not_not_intro hgrant),
      if_neg (by decide : ¬ (ContractParty.Warehouse = ContractParty.Buyer))]
  have hload' : load_paydown (accept_paydown ctx info id st).2 id =
      some (accept_paydown_record d ContractParty.Warehouse) := by
    rw [hres]
    dsimp only
    rw [load_paydown_save, if_pos (by
      rw [accept_paydown_record_id, hid])]
  constructor
  · intro hk
    refine ⟨accept_paydown_record d ContractParty.Warehouse,
      by rw [hres], hload',
      accept_paydown_record_parties d ContractParty.Warehouse, ?_⟩
    rw [accept_paydown_record_state_andsell d ContractParty.Warehouse hk]
    by_cases hB : ContractParty.Buyer ∈ d.parties_accepted
    · rw [if_pos (by
        rw [vec_contains_iff]
        intro x hx
        rcases List.mem_cons.mp hx with rfl | hx
        · exact List.mem_append.mpr (Or.inr (List.mem_singleton_self _))
        · rw [List.mem_singleton] at hx
          subst hx
          exact List.mem_append.mpr (Or.inl hB))]
      simp [hB]
    · rw [if_neg (by
        rw [vec_contains_iff]
        intro hall
        have hBm := hall ContractParty.Buyer (by simp)
        rcases List.mem_append.mp hBm with hx | hx
        · exact hB hx
        · rw [List.mem_singleton] at hx
          cases hx)]
      rw [hstate]
      constructor
      · intro hh
        cases hh
      · intro hh
        exact absurd hh hB
  · intro hk
    refine ⟨accept_paydown_record d ContractParty.Warehouse,
      by rw [hres], hload',
      accept_paydown_record_parties d ContractParty.Warehouse, ?_⟩
    rw [accept_paydown_record_state_only d ContractParty.Warehouse hk]
    rw [if_pos (by
      rw [vec_contains_iff]
      intro x hx
      rw [List.mem_singleton] at hx
      subst hx
      exact List.mem_append.mpr (Or.inr (List.mem_singleton_self _)))]

/-- Witness for C6: accepting the fixture paydown-and-sell E1 as the
warehouse alone leaves it Proposed (Buyer not yet accepted). -/
theorem thm_C6_witness :
    ((Paydown.mk "E1" ["a"] 100 PaydownKind.PaydownAndSell PaydownState.Proposed
        [] (some (PaydownSaleInfo.mk "B" 500))).kind = PaydownKind.PaydownAndSell →
      ∃ d', (accept_paydown ctxW (infoW "w") "E1" stE4).1 =
          Except.ok (Response.mk [] [] []) ∧
        load_paydown (accept_paydown ctxW (infoW "w") "E1" stE4).2 "E1" = some d' ∧
        d'.parties_accepted = (Paydown.mk "E1" ["a"] 100 PaydownKind.PaydownAndSell
          PaydownState.Proposed [] (some (PaydownSaleInfo.mk "B" 500))).parties_accepted
          ++ [ContractParty.Warehouse] ∧
        (d'.state = PaydownState.Accepted ↔
          ContractParty.Buyer ∈ (Paydown.mk "E1" ["a"] 100 PaydownKind.PaydownAndSell
            PaydownState.Proposed [] (some (PaydownSaleInfo.mk "B" 500))).parties_accepted)) ∧
    ((Paydown.mk "E1" ["a"] 100 PaydownKind.PaydownAndSell PaydownState.Proposed
        [] (some (PaydownSaleInfo.mk "B" 500))).kind = PaydownKind.PaydownOnly →
      ∃ d', (accept_paydown ctxW (infoW "w") "E1" stE4).1 =
          Except.ok (Response.mk [] [] []) ∧
        load_paydown (accept_paydown ctxW (infoW "w") "E1" stE4).2 "E1" = some d' ∧
        d'.parties_accepted = (Paydown.mk "E1" ["a"] 100 PaydownKind.PaydownAndSell
          PaydownState.Proposed [] (some (PaydownSaleInfo.mk "B" 500))).parties_accepted
          ++ [ContractParty.Warehouse] ∧
        d'.state = PaydownState.Accepted) :=
  thm_C6 ctxW (infoW "w") "E1" stE4
    (Paydown.mk "E1" ["a"] 100 PaydownKind.PaydownAndSell PaydownState.Proposed
      [] (some (PaydownSaleInfo.mk "B" 500)))
    (by decide) (by decide) (by decide) (by decide) (by decide)

/-- Claim C7: AcceptPledge on a Proposed pledge with the escrow grant present and
a single attached coin fails with InsufficientPledgeAdvanceFunds naming
both the required and the received amount/denom whenever the coin does not
exactly match (totalAdvance, settlement denom), and succeeds, forwarding
the advance to escrow, exactly when it matches. -/
theorem thm_C7 (ctx : Ctx) (info : MessageInfo) (id : String) (st : Ledger)
    (p : Pledge) (c : Coin) (hload : load_pledge st id = some p)
    (hstate : p.state = PledgeState.Proposed)
    (hgrant : escrow_grant_ok ctx = true) (hfunds : info.funds = [c]) :
    ((c.denom ≠ ctx.contract_info.facility.stablecoin_denom ∨
        c.amount ≠ p.total_advance) →
      (accept_pledge ctx info id st).1 = Except.error
        (ContractError.InsufficientPledgeAdvanceFunds p.total_advance
          ctx.contract_info.facility.stablecoin_denom c.amount c.denom)) ∧
    ((c.denom = ctx.contract_info.facility.stablecoin_denom ∧
        c.amount = p.total_advance) →
      (accept_pledge ctx info id st).1 = Except.ok (Response.mk
        [Msg.bankSend
          (ctx.querier.byAddress ctx.contract_info.facility.escrow_marker).address
          p.total_advance ctx.contract_info.facility.stablecoin_denom] [] []) ∧
      load_pledge (accept_pledge ctx info id st).2 id =
        some ({ p with state := PledgeState.Accepted })) := by
  have hid : p.id = id := (mem_of_loadRec Pledge.id hload).2
  constructor
  · intro hmm
    unfold accept_pledge
    rw [hload]
    dsimp only
    rw [if_neg (not_not_intro hstate), if_neg (not_not_intro hgrant), hfunds]
    rw [show ([c] : List Coin).head? = some c from rfl]
    dsimp only
    rw [if_pos hmm]
  · intro hmatch
    have hres : accept_pledge ctx info id st =
        (Except.ok (Response.mk
          [Msg.bankSend
            (ctx.querier.byAddress ctx.contract_info.facility.escrow_marker).address
            p.total_advance ctx.contract_info.facility.stablecoin_denom] [] []),
          save_pledge st ({ p with state := PledgeState.Accepted })) := by
      unfold accept_pledge
      rw [hload]
      dsimp only
      rw [if_neg (not_not_intro hstate), if_neg (not_not_intro hgrant), hfunds]
      rw [show ([c] : List Coin).head? = some c from rfl]
      dsimp only
      rw [if_neg (by
        rintro (hh | hh)
        · exact hh hmatch.1
        · exact hh hmatch.2)]
    refine ⟨by rw [hres], ?_⟩
    rw [hres]
    dsimp only
    rw [load_pledge_save, if_pos (by rw [hid])]

/-- Witness for C7: at the fixture proposal state, attaching 999 usd fails
naming 1000 required and 999 received; attaching 1000 usd succeeds and
forwards the advance. -/
theorem thm_C7_witness :
    (accept_pledge ctxW (infoWF "w" 999 "usd") "P1" stP1).1 = Except.error
      (ContractError.InsufficientPledgeAdvanceFunds 1000 "usd" 999 "usd") ∧
    (accept_pledge ctxW (infoWF "w" 1000 "usd") "P1" stP1).1 = Except.ok
      (Response.mk [Msg.bankSend "escaddr" 1000 "usd"] [] []) :=
  ⟨(thm_C7 ctxW (infoWF "w" 999 "usd") "P1" stP1
      (Pledge.mk "P1" ["a", "b"] 1000 "amd" PledgeState.Proposed) (Coin.mk "usd" 999)
      (by decide) (by decide) (by decide) (by decide)).1
      (Or.inr (by decide)),
    ((thm_C7 ctxW (infoWF "w" 1000 "usd") "P1" stP1
      (Pledge.mk "P1" ["a", "b"] 1000 "amd" PledgeState.Proposed) (Coin.mk "usd" 1000)
      (by decide) (by decide) (by decide) (by decide)).2
      ⟨by decide, by decide⟩).1⟩

/-- If accept_paydown succeeded, its branch conditions held and the ledger
holds the updated record. -/
theorem accept_paydown_success_shape (ctx : Ctx) (info : MessageInfo)
    (id : String) (st : Ledger)
    (hok : (accept_paydown ctx info id st).1.isOk = true) :
    ∃ d party, load_paydown st id = some d ∧
      accept_paydown_party ctx info d = Except.ok party ∧
      party ∉ d.parties_accepted ∧ d.state = PaydownState.Proposed ∧
      (accept_paydown ctx info id st).2 =
        save_paydown st (accept_paydown_record d party) := by
  unfold accept_paydown at hok ⊢
  cases hl : load_paydown st id with
  | none =>
    rw [hl] at hok
    cases hok
  | some d =>
    rw [hl] at hok
    dsimp only at hok ⊢
    cases hp : accept_paydown_party ctx info d with
    | error e =>
      rw [hp] at hok
      cases hok
    | ok party =>
      rw [hp] at hok
      dsimp only at hok ⊢
      by_cases h1 : party ∈ d.parties_accepted
      · rw [if_pos h1] at hok
        cases hok
      · rw [if_neg h1] at hok ⊢
        by_cases h2 : d.state = PaydownState.Proposed
        · rw [if_neg (not_not_intro h2)] at hok ⊢
          by_cases h3 : escrow_grant_ok ctx
          · rw [if_neg (not_not_intro h3)] at hok ⊢
            by_cases h4 : party = ContractParty.Buyer
            · rw [if_pos h4] at hok ⊢
              cases hf : info.funds.head? with
              | none =>
                rw [hf] at hok
                cases hok
              | some c =>
                rw [hf] at hok
                dsimp only at hok ⊢
                cases hsi : d.sale_info with
                | none =>
                  rw [hsi] at hok
                  cases hok
                | some si =>
                  rw [hsi] at hok
                  dsimp only at hok ⊢
                  by_cases h5 : c.denom ≠ ctx.contract_info.facility.stablecoin_denom ∨
                      c.amount ≠ si.price
                  · rw [if_pos h5] at hok
                    cases hok
                  · rw [if_neg h5]
                    exact ⟨d, party, rfl, hp, h1, h2, rfl⟩
            · rw [if_neg h4]
              exact ⟨d, party, rfl, hp, h1, h2, rfl⟩
          · rw [if_pos (by simpa using h3)] at hok
            cases hok
        · rw [if_pos (by simpa using h2)] at hok
          cases hok

/-- Claim C8: accepting the same paydown twice with a caller resolving to the
same party fails the second time with PaydownPartyAlreadyAccepted, and in
every reachable state the parties_accepted collection of every paydown
contains each ContractParty at most once. -/
theorem thm_C8 :
    (∀ (ctx : Ctx) (info info2 : MessageInfo) (id : String) (st : Ledger)
        (d : Paydown) (party : ContractParty),
      load_paydown st id = some d →
      accept_paydown_party ctx info d = Except.ok party →
      (accept_paydown ctx info id st).1.isOk = true →
      info2.sender = info.sender →
      (accept_paydown ctx info2 id (accept_paydown ctx info id st).2).1 =
        Except.error (ContractError.PaydownPartyAlreadyAccepted party)) ∧
    (∀ st : Ledger, Reachable st → ∀ d ∈ st.paydowns, d.parties_accepted.Nodup) := by
  constructor
  · intro ctx info info2 id st d party hload hparty hok hsender
    obtain ⟨d0, party0, hl0, hp0, hnp0, hs0, hst'⟩ :=
      accept_paydown_success_shape ctx info id st hok
    rw [hload] at hl0
    injection hl0 with hl0
    subst hl0
    rw [hparty] at hp0
    injection hp0 with hp0
    subst hp0
    have hid : d.id = id := (mem_of_loadRec Paydown.id hload).2
    have hrec : load_paydown (accept_paydown ctx info id st).2 id =
        some (accept_paydown_record d party) := by
      rw [hst', load_paydown_save,
        if_pos (by rw [accept_paydown_record_id, hid])]
    generalize hgen : (accept_paydown ctx info id st).2 = st2 at hrec
    unfold accept_paydown
    rw [hrec]
    dsimp only
    rw [accept_paydown_party_congr ctx info info2 d (accept_paydown_record d party)
      hsender (accept_paydown_record_kind d party)
      (accept_paydown_record_sale_info d party), hparty]
    dsimp only
    rw [if_pos (by
      rw [accept_paydown_record_parties]
      exact List.mem_append.mpr (Or.inr (List.mem_singleton_self _)))]
  · intro st h
    exact PartiesInv_reachable h

/-- Witness for C8: the warehouse accepting E1 twice fails the second time
with the duplicate-acceptance error; the initial ledger trivially has
duplicate-free party sets. -/
theorem thm_C8_witness :
    (accept_paydown ctxW (infoW "w") "E1"
        (accept_paydown ctxW (infoW "w") "E1" stE4).2).1 =
      Except.error (ContractError.PaydownPartyAlreadyAccepted ContractParty.Warehouse) ∧
    (∀ d ∈ initLedger.paydowns, d.parties_accepted.Nodup) :=
  ⟨thm_C8.1 ctxW (infoW "w") (infoW "w") "E1" stE4
      (Paydown.mk "E1" ["a"] 100 PaydownKind.PaydownAndSell PaydownState.Proposed
        [] (some (PaydownSaleInfo.mk "B" 500)))
      ContractParty.Warehouse (by decide) rfl rfl rfl,
    thm_C8.2 initLedger Reachable.init⟩

/-- The proposal operations report AssetsNotInInventory exactly when the
inventory check fails (given a fresh id). -/
theorem propose_common_ani_iff (ctx : Ctx) (info : MessageInfo) (id : String)
    (d : Paydown) (st : Ledger) (hload : load_paydown st id = none) :
    ((propose_paydown_common ctx info id d st).1 =
        Except.error ContractError.AssetsNotInInventory) ↔
      assets_in_inventory st (some AssetState.Inventory) d.assets = false := by
  unfold propose_paydown_common
  rw [hload]
  dsimp only
  by_cases hc : assets_in_inventory st (some AssetState.Inventory) d.assets
  · rw [if_neg (not_not_intro hc)]
    constructor
    · intro h1
      exfalso
      by_cases h2 : escrow_grant_ok ctx
      · rw [if_neg (not_not_intro h2)] at h1
        cases hf : info.funds.head? with
        | none =>
          rw [hf] at h1
          simp at h1
        | some c =>
          rw [hf] at h1
          dsimp only at h1
          by_cases h5 : c.denom ≠ ctx.contract_info.facility.stablecoin_denom ∨
              c.amount ≠ d.total_paydown
          · rw [if_pos h5] at h1
            simp at h1
          · rw [if_neg h5] at h1
            simp at h1
      · rw [if_pos (by simpa using h2)] at h1
        simp at h1
    · intro hfalse
      rw [hc] at hfalse
      cases hfalse
  · rw [if_pos (by simpa using hc)]
    constructor
    · intro _
      simpa using hc
    · intro _
      rfl

/-- Claim C9: ProposePaydown and ProposePaydownAndSell fail with
AssetsNotInInventory exactly when not every asset id in the proposal has
recorded state Inventory (an absent record, or a record in any other
state, fails the whole proposal). -/
theorem thm_C9 (ctx : Ctx) (info : MessageInfo) (st : Ledger) (id : String)
    (hwfA : (st.assets.map Prod.fst).Nodup)
    (hload : load_paydown st id = none) (assets : List String) (tp : Nat)
    (buyer : String) (price : Nat) :
    (((propose_paydown ctx info id assets tp st).1 =
        Except.error ContractError.AssetsNotInInventory) ↔
      ¬ (∀ a ∈ assets, lookupA st.assets a = some AssetState.Inventory)) ∧
    (((propose_paydown_and_sell ctx info id assets tp buyer price st).1 =
        Except.error ContractError.AssetsNotInInventory) ↔
      ¬ (∀ a ∈ assets, lookupA st.assets a = some AssetState.Inventory)) := by
  have hiff := assets_in_inventory_iff_lookup st assets hwfA
  have hcond : (assets_in_inventory st (some AssetState.Inventory) assets = false) ↔
      ¬ (∀ a ∈ assets, lookupA st.assets a = some AssetState.Inventory) := by
    constructor
    · intro hfalse hall
      rw [hiff.mpr hall] at hfalse
      cases hfalse
    · intro hnall
      cases hcc : assets_in_inventory st (some AssetState.Inventory) assets with
      | true => exact absurd (hiff.mp hcc) hnall
      | false => rfl
  constructor
  · rw [show propose_paydown ctx info id assets tp st =
      propose_paydown_common ctx info id
        (Paydown.mk id assets tp PaydownKind.PaydownOnly PaydownState.Proposed
          [] none) st from rfl]
    rw [propose_common_ani_iff ctx info id _ st hload]
    exact hcond
  · rw [show propose_paydown_and_sell ctx info id assets tp buyer price st =
      propose_paydown_common ctx info id
        (Paydown.mk id assets tp PaydownKind.PaydownAndSell PaydownState.Proposed
          [] (some (PaydownSaleInfo.mk buyer price))) st from rfl]
    rw [propose_common_ani_iff ctx info id _ st hload]
    exact hcond

/-- Witness for C9: proposing a paydown over the unrecorded asset zz at
the fixture state fails with AssetsNotInInventory. -/
theorem thm_C9_witness :
    (((propose_paydown ctxW (infoW "o") "DX" ["zz"] 5 stP3).1 =
        Except.error ContractError.AssetsNotInInventory) ↔
      ¬ (∀ a ∈ ["zz"], lookupA stP3.assets a = some AssetState.Inventory)) ∧
    (((propose_paydown_and_sell ctxW (infoW "o") "DX" ["zz"] 5 "B" 7 stP3).1 =
        Except.error ContractError.AssetsNotInInventory) ↔
      ¬ (∀ a ∈ ["zz"], lookupA stP3.assets a = some AssetState.Inventory)) :=
  thm_C9 ctxW (infoW "o") stP3 "DX" (by decide) (by decide) ["zz"] 5 "B" 7

/-- ExecutePaydown succeeds on an Accepted paydown with the grant present,
returning the affected and closed pledge lists and the updated ledger. -/
theorem execute_paydown_success (ctx : Ctx) (info : MessageInfo) (id : String)
    (st : Ledger) (d : Paydown) (hload : load_paydown st id = some d)
    (hstate : d.state = PaydownState.Accepted)
    (hgrant : escrow_grant_ok ctx = true)
    (hsale : d.kind = PaydownKind.PaydownAndSell → d.sale_info.isSome = true) :
    ∃ ms0, execute_paydown ctx info id st =
      (Except.ok (Response.mk
        ((close_pledges_loop ctx.querier ctx.contract_info.facility.originator
          (execute_paydown_closed (execute_paydown_base st d)
            (find_pledge_ids_with_assets (execute_paydown_base st d).pledges
              d.assets (some PledgeState.Executed)))
          (execute_paydown_base st d).pledges ms0).2)
        (find_pledge_ids_with_assets (execute_paydown_base st d).pledges
          d.assets (some PledgeState.Executed))
        (execute_paydown_closed (execute_paydown_base st d)
          (find_pledge_ids_with_assets (execute_paydown_base st d).pledges
            d.assets (some PledgeState.Executed)))),
       Ledger.mk (execute_paydown_base st d).assets
         (close_pledges_loop ctx.querier ctx.contract_info.facility.originator
           (execute_paydown_closed (execute_paydown_base st d)
             (find_pledge_ids_with_assets (execute_paydown_base st d).pledges
               d.assets (some PledgeState.Executed)))
           (execute_paydown_base st d).pledges ms0).1
         (execute_paydown_base st d).paydowns) := by
  unfold execute_paydown
  rw [hload]
  dsimp only
  rw [if_neg (not_not_intro hstate), if_neg (not_not_intro hgrant)]
  by_cases hk : d.kind = PaydownKind.PaydownAndSell
  · rw [if_pos hk]
    cases hsi : d.sale_info with
    | none =>
      exfalso
      have := hsale hk
      rw [hsi] at this
      cases this
    | some si =>
      dsimp only
      exact ⟨_, rfl⟩
  · rw [if_neg hk]
    dsimp only
    exact ⟨_, rfl⟩

/-- Claim C1: when ExecutePaydown succeeds on an Accepted paydown, after the
paydown's assets are removed from inventory it computes the set of
Executed pledges referencing any of the paydown's assets, closes exactly
those pledges in that set none of whose assets remain in the post-removal
inventory (inventory meaning records in state Inventory or
PaydownProposed), and reports both the affected set and the closed subset
to the caller. -/
theorem thm_C1 (ctx : Ctx) (info : MessageInfo) (id : String) (st : Ledger)
    (d : Paydown) (hload : load_paydown st id = some d)
    (hstate : d.state = PaydownState.Accepted)
    (hgrant : escrow_grant_ok ctx = true)
    (hsale : d.kind = PaydownKind.PaydownAndSell → d.sale_info.isSome = true)
    (hwf : (st.pledges.map Pledge.id).Nodup) :
    ∃ out, (execute_paydown ctx info id st).1 = Except.ok out ∧
      (∀ pid, pid ∈ out.affected_pledges ↔
        ∃ p ∈ st.pledges, p.id = pid ∧ p.state = PledgeState.Executed ∧
          ∃ a ∈ p.assets, a ∈ d.assets) ∧
      (∀ a, a ∈ list_inventory (execute_paydown_base st d) ↔
        (a ∉ d.assets ∧ ((a, AssetState.Inventory) ∈ st.assets ∨
          (a, AssetState.PaydownProposed) ∈ st.assets))) ∧
      (∀ pid, pid ∈ out.closed_pledges ↔
        (pid ∈ out.affected_pledges ∧
          ∀ p ∈ st.pledges, p.id = pid →
            ∀ a ∈ p.assets, a ∉ list_inventory (execute_paydown_base st d))) ∧
      (∀ p ∈ st.pledges,
        load_pledge (execute_paydown ctx info id st).2 p.id =
          some (if p.id ∈ out.closed_pledges then closePledge p else p)) := by
  obtain ⟨ms0, hrun⟩ :=
    execute_paydown_success ctx info id st d hload hstate hgrant hsale
  have hbaseP : (execute_paydown_base st d).pledges = st.pledges := rfl
  have hAff : ∀ pid, pid ∈ find_pledge_ids_with_assets
      (execute_paydown_base st d).pledges d.assets (some PledgeState.Executed) ↔
      ∃ p ∈ st.pledges, p.id = pid ∧ p.state = PledgeState.Executed ∧
        ∃ a ∈ p.assets, a ∈ d.assets := by
    intro pid
    rw [hbaseP]
    exact mem_find_pledge_ids st.pledges d.assets PledgeState.Executed pid
  have hInvProp : ∀ a, a ∈ list_inventory (execute_paydown_base st d) ↔
      (a ∉ d.assets ∧ ((a, AssetState.Inventory) ∈ st.assets ∨
        (a, AssetState.PaydownProposed) ∈ st.assets)) := by
    intro a
    rw [mem_list_inventory]
    have hb : (execute_paydown_base st d).assets =
        remove_assets st.assets d.assets := rfl
    rw [hb, mem_remove_assets, mem_remove_assets]
    constructor
    · rintro (⟨hm, hn⟩ | ⟨hm, hn⟩)
      · exact ⟨hn, Or.inl hm⟩
      · exact ⟨hn, Or.inr hm⟩
    · rintro ⟨hn, hm | hm⟩
      · exact Or.inl ⟨hm, hn⟩
      · exact Or.inr ⟨hm, hn⟩
  have hClosed : ∀ pid, pid ∈ execute_paydown_closed (execute_paydown_base st d)
      (find_pledge_ids_with_assets (execute_paydown_base st d).pledges
        d.assets (some PledgeState.Executed)) ↔
      (pid ∈ find_pledge_ids_with_assets (execute_paydown_base st d).pledges
          d.assets (some PledgeState.Executed) ∧
        ∀ p ∈ st.pledges, p.id = pid →
          ∀ a ∈ p.assets, a ∉ list_inventory (execute_paydown_base st d)) := by
    intro pid
    rw [mem_execute_paydown_closed]
    constructor
    · rintro ⟨haff, p, hl, hna⟩
      refine ⟨haff, ?_⟩
      intro q hq hqid a haq hainv
      have hlq : load_pledge (execute_paydown_base st d) q.id = some q := by
        show loadRec Pledge.id (execute_paydown_base st d).pledges q.id = some q
        rw [hbaseP]
        exact loadRec_of_mem_nodup Pledge.id hwf hq
      rw [hqid] at hlq
      rw [hlq] at hl
      injection hl with hl
      apply hna
      rw [vec_has_any_iff]
      exact ⟨a, hl ▸ haq, hainv⟩
    · rintro ⟨haff, hall⟩
      refine ⟨haff, ?_⟩
      obtain ⟨p, hp, hpid, hpe, _⟩ := (hAff pid).mp haff
      refine ⟨p, ?_, ?_⟩
      · show loadRec Pledge.id (execute_paydown_base st d).pledges pid = some p
        rw [hbaseP, ← hpid]
        exact loadRec_of_mem_nodup Pledge.id hwf hp
      · intro hha
        rw [vec_has_any_iff] at hha
        obtain ⟨x, hxp, hxi⟩ := hha
        exact hall p hp hpid x hxp hxi
  refine ⟨_, by rw [hrun], ?_, hInvProp, ?_, ?_⟩
  · exact hAff
  · exact hClosed
  · intro p hp
    rw [hrun]
    have hlp : loadRec Pledge.id st.pledges p.id = some p :=
      loadRec_of_mem_nodup Pledge.id hwf hp
    show loadRec Pledge.id (close_pledges_loop ctx.querier
        ctx.contract_info.facility.originator
        (execute_paydown_closed (execute_paydown_base st d)
          (find_pledge_ids_with_assets (execute_paydown_base st d).pledges
            d.assets (some PledgeState.Executed)))
        (execute_paydown_base st d).pledges ms0).1 p.id =
      some (if p.id ∈ execute_paydown_closed (execute_paydown_base st d)
          (find_pledge_ids_with_assets (execute_paydown_base st d).pledges
            d.assets (some PledgeState.Executed)) then closePledge p else p)
    rw [show (execute_paydown_base st d).pledges = st.pledges from rfl]
    rw [loadRec_close_loop_some ctx.querier ctx.contract_info.facility.originator
      _ st.pledges ms0 p.id p hlp]
    by_cases hc : p.id ∈ execute_paydown_closed (execute_paydown_base st d)
      (find_pledge_ids_with_assets st.pledges d.assets (some PledgeState.Executed))
    · rw [if_pos hc, if_pos hc]
    · rw [if_neg hc, if_neg hc]

/-- Witness for C1: executing D1 at the fixture state reports P1 as
affected and closes nothing, since asset b remains in inventory. -/
theorem thm_C1_witness :
    ∃ out, (execute_paydown ctxW (infoW "w") "D1" stP5).1 = Except.ok out ∧
      (∀ pid, pid ∈ out.affected_pledges ↔
        ∃ p ∈ stP5.pledges, p.id = pid ∧ p.state = PledgeState.Executed ∧
          ∃ a ∈ p.assets, a ∈ (Paydown.mk "D1" ["a"] 100 PaydownKind.PaydownOnly
            PaydownState.Accepted [ContractParty.Warehouse] none).assets) ∧
      (∀ a, a ∈ list_inventory (execute_paydown_base stP5
          (Paydown.mk "D1" ["a"] 100 PaydownKind.PaydownOnly
            PaydownState.Accepted [ContractParty.Warehouse] none)) ↔
        (a ∉ (Paydown.mk "D1" ["a"] 100 PaydownKind.PaydownOnly
            PaydownState.Accepted [ContractParty.Warehouse] none).assets ∧
          ((a, AssetState.Inventory) ∈ stP5.assets ∨
            (a, AssetState.PaydownProposed) ∈ stP5.assets))) ∧
      (∀ pid, pid ∈ out.closed_pledges ↔
        (pid ∈ out.affected_pledges ∧
          ∀ p ∈ stP5.pledges, p.id = pid →
            ∀ a ∈ p.assets, a ∉ list_inventory (execute_paydown_base stP5
              (Paydown.mk "D1" ["a"] 100 PaydownKind.PaydownOnly
                PaydownState.Accepted [ContractParty.Warehouse] none)))) ∧
      (∀ p ∈ stP5.pledges,
        load_pledge (execute_paydown ctxW (infoW "w") "D1" stP5).2 p.id =
          some (if p.id ∈ out.closed_pledges then closePledge p else p)) :=
  thm_C1 ctxW (infoW "w") "D1" stP5
    (Paydown.mk "D1" ["a"] 100 PaydownKind.PaydownOnly PaydownState.Accepted
      [ContractParty.Warehouse] none)
    (by decide) (by decide) (by decide) (by decide) (by decide)

end Claims

end Warehouse
